import Mathlib

/-!
Verification of the ppproto PPP-over-Serial implementation.

This file gives a shallow embedding, in Lean, of the Rust sources:
 * `pppos/crc.rs`         — CRC-16-FCS (`crc16`)
 * `frame_reader.rs`      — HDLC-like frame decoder (`FrameReader`)
 * `pppos/frame_writer.rs`— HDLC-like frame encoder (`FrameWriter`)
 * `wire.rs`              — wire codec (`Packet`, `Payload`, `OptionVal`, ...)
 * `ppp/option_fsm.rs`    — RFC-1661 option state machine (`OptionFsm`)
 * `ppp/lcp.rs`           — LCP capability
 * `ppp/pap.rs`           — PAP state machine
 * `pppos/mod.rs`         — PPPoS facade (`send`, the `poll` tx closure)

Machine integers are modelled as `Nat` with explicit `% 2^w` where the Rust
code relies on wrapping; byte slices are `List Nat` whose elements are < 256
(carried as hypotheses where needed).  Rust panics (`panic!`, `assert!`,
`unwrap`, out-of-bounds slicing) are modelled as `Except.error` with the
panic message; `Result<_, E>` values keep their error type.
-/

/-! ## CRC-16-FCS (pppos/crc.rs) -/

/-- One iteration of the `crc16` loop in `pppos/crc.rs`:
`let e = seed as u8 ^ b; let f = e ^ (e << 4); let f = f as u16;
 seed = (seed >> 8) ^ (f << 8) ^ (f << 3) ^ (f >> 4)`.
`seed as u8` is `seed % 256`; `b` is a `u8` so `b % 256` is the identity on
real inputs; the `u8` shift `e << 4` wraps mod 256; the `u16` shifts wrap
mod 65536 (for `f < 256` only `f << 8` can reach the bound). -/
def crcStep (seed b : Nat) : Nat :=
  let e := (seed % 256) ^^^ (b % 256)
  let f := e ^^^ ((e <<< 4) % 256)
  (seed >>> 8) ^^^ (((f <<< 8) % 65536) ^^^ (((f <<< 3) % 65536) ^^^ (f >>> 4)))

/-- `crc16` from `pppos/crc.rs`: fold `crcStep` over the data bytes. -/
def crc16 (seed : Nat) (data : List Nat) : Nat :=
  data.foldl crcStep seed

/-! ## Frame reader (frame_reader.rs) -/

/-- `frame_reader.rs` `enum State`. -/
inductive RState where
  | start
  | address
  | data
  | complete
deriving DecidableEq

/-- `frame_reader.rs` `struct FrameReader`.  The Rust reader borrows a
caller buffer `buf: &mut [u8]` and a write index `len`; we keep the bytes
written so far as the list `buf` (so `len = buf.length`) and the buffer
capacity as `bufCap`. -/
structure FrameReader where
  state : RState
  escape : Bool
  buf : List Nat
  bufCap : Nat
deriving DecidableEq

/-- `FrameReader::new`. -/
def FrameReader.new (cap : Nat) : FrameReader :=
  { state := .start, escape := false, buf := [], bufCap := cap }

/-- The body of the `for` loop of `FrameReader::consume`, for the states
that keep consuming (the `Complete` arm, which stops the loop, is handled
in `FrameReader.consume` below).  The `self.len == usize::MAX` overflow
guard of the source cannot fire on `Nat` and is subsumed by the capacity
check `len >= buf.len()`. -/
def FrameReader.consumeByte (r : FrameReader) (b : Nat) : FrameReader :=
  match r.state with
  | .start => if b = 0x7e then { r with state := .address } else r
  | .address =>
    if b = 0xff then { r with state := .data }
    else if b = 0x7e then r
    else { r with state := .start }
  | .data =>
    if b = 0x7e then
      -- End of packet
      let ok := 3 ≤ r.buf.length ∧ r.buf.headD 0 = 0x03 ∧ crc16 0x00FF r.buf = 0xf0b8
      { r with state := if ok then .complete else .address }
    else if b = 0x7d then
      { r with escape := true }
    else
      let b := if r.escape then b ^^^ 0x20 else b
      if r.buf.length ≥ r.bufCap then
        { r with state := .start, buf := [], escape := false }
      else
        { r with buf := r.buf ++ [b], escape := false }
  | .complete => r

/-- `FrameReader::consume`: feed bytes one at a time, stopping (without
consuming) at the first byte handled in state `Complete`; returns the new
reader and the number of bytes consumed, mirroring the early `return i`. -/
def FrameReader.consume (r : FrameReader) : List Nat → FrameReader × Nat
  | [] => (r, 0)
  | b :: rest =>
    -- the `(State::Complete, _) => return i` arm of the source's match
    if r.state = .complete then (r, 0)
    else
      let out := (r.consumeByte b).consume rest
      (out.1, out.2 + 1)

/-- `FrameReader::receive`: in state `Complete` expose `buf[1..len-2]`
(strip the control byte and the 2 FCS bytes), reset `len` to 0 and resume
in state `Address`; otherwise `None`. -/
def FrameReader.receive (r : FrameReader) : Option (List Nat) × FrameReader :=
  match r.state with
  | .complete =>
    (some ((r.buf.drop 1).take (r.buf.length - 3)),
     { r with state := .address, buf := [] })
  | _ => (none, r)

/-! ## Frame writer (pppos/frame_writer.rs) -/

/-- `pppos/frame_writer.rs` `struct BufferFullError`. -/
inductive BufferFullError where
  | bufferFull
deriving DecidableEq

/-- `pppos/frame_writer.rs` `struct FrameWriter`: the caller buffer is kept
as the bytes written so far (`out`, so `len = out.length`) plus its
capacity `bufCap`. -/
structure FrameWriter where
  out : List Nat
  bufCap : Nat
  crc : Nat
  asyncmap : Nat
deriving DecidableEq

/-- `FrameWriter::new`: asyncmap defaults to `0xFFFFFFFF`. -/
def FrameWriter.new (cap : Nat) : FrameWriter :=
  { out := [], bufCap := cap, crc := 0, asyncmap := 0xFFFFFFFF }

/-- `FrameWriter::new_with_asyncmap`. -/
def FrameWriter.new_with_asyncmap (cap asyncmap : Nat) : FrameWriter :=
  { out := [], bufCap := cap, crc := 0, asyncmap := asyncmap }

/-- `FrameWriter::append_raw`. -/
def FrameWriter.append_raw (w : FrameWriter) (data : List Nat) :
    Except BufferFullError FrameWriter :=
  if w.out.length + data.length > w.bufCap then
    .error .bufferFull
  else
    .ok { w with out := w.out ++ data }

/-- The `let escape = match b { ... }` decision inside
`FrameWriter::append_escaped`: escape `0x00..=0x1f` iff the corresponding
asyncmap bit is set, always escape `0x7d` and `0x7e`. -/
def escByte (asyncmap b : Nat) : Bool :=
  if b ≤ 0x1f then asyncmap &&& (1 <<< b) != 0
  else if b = 0x7d then true
  else if b = 0x7e then true
  else false

/-- `FrameWriter::append_escaped`: per byte, emit `0x7d, b ^ 0x20` when
escaping, else the byte itself. -/
def FrameWriter.append_escaped (w : FrameWriter) : List Nat →
    Except BufferFullError FrameWriter
  | [] => .ok w
  | b :: rest => do
    let w' ←
      if escByte w.asyncmap b then w.append_raw [0x7d, b ^^^ 0x20]
      else w.append_raw [b]
    w'.append_escaped rest

/-- `FrameWriter::start`: seed the CRC over the (unescaped) address and
control bytes, then emit `0x7e 0xff` raw and `0x03` escaped. -/
def FrameWriter.start (w : FrameWriter) : Except BufferFullError FrameWriter := do
  let w := { w with crc := crc16 0xFFFF [0xFF, 0x03] }
  let w ← w.append_raw [0x7e, 0xff]
  w.append_escaped [0x03]

/-- `FrameWriter::finish`: append the escaped FCS (`crc ^ 0xFFFF`,
little-endian: `u16::to_le_bytes`) and the closing flag. -/
def FrameWriter.finish (w : FrameWriter) : Except BufferFullError FrameWriter := do
  let crc := w.crc ^^^ 0xFFFF
  let w ← w.append_escaped [crc % 256, (crc / 256) % 256]
  w.append_raw [0x7e]

/-- `FrameWriter::append`: escape the data into the buffer, then update the
CRC over the unescaped bytes. -/
def FrameWriter.append (w : FrameWriter) (data : List Nat) :
    Except BufferFullError FrameWriter := do
  let w ← w.append_escaped data
  .ok { w with crc := crc16 w.crc data }

/-- The `FrameWriter` encoding sequence named by the spec's round-trip
property: `start(); append(P); finish()` on a fresh writer with the given
asyncmap and buffer capacity, yielding the final writer. -/
def encodeFrame (asyncmap : Nat) (payload : List Nat) (cap : Nat) :
    Except BufferFullError FrameWriter := do
  let w := FrameWriter.new_with_asyncmap cap asyncmap
  let w ← w.start
  let w ← w.append payload
  w.finish

/-! ## Wire codec (wire.rs) -/

/-- `wire.rs` `enum ProtocolType`. -/
inductive ProtocolType where
  | unknown
  | lcp
  | pap
  | ipv4
  | ipv4cp
deriving DecidableEq

/-- The `#[repr(u16)]` discriminants of `ProtocolType`. -/
def ProtocolType.toU16 : ProtocolType → Nat
  | .unknown => 0
  | .lcp => 0xc021
  | .pap => 0xc023
  | .ipv4 => 0x0021
  | .ipv4cp => 0x8021

/-- `ProtocolType::from` (num_enum `FromPrimitive`, default `Unknown`). -/
def ProtocolType.fromU16 (v : Nat) : ProtocolType :=
  if v = 0xc021 then .lcp
  else if v = 0xc023 then .pap
  else if v = 0x0021 then .ipv4
  else if v = 0x8021 then .ipv4cp
  else .unknown

/-- `wire.rs` `enum Code`. -/
inductive Code where
  | unknown
  | configureReq
  | configureAck
  | configureNack
  | configureRej
  | terminateReq
  | terminateAck
  | codeRej
  | protocolRej
  | echoReq
  | echoReply
  | discardReq
deriving DecidableEq

/-- The `#[repr(u8)]` discriminants of `Code`; the derived Rust `Ord`
compares these values. -/
def Code.toU8 : Code → Nat
  | .unknown => 0
  | .configureReq => 1
  | .configureAck => 2
  | .configureNack => 3
  | .configureRej => 4
  | .terminateReq => 5
  | .terminateAck => 6
  | .codeRej => 7
  | .protocolRej => 8
  | .echoReq => 9
  | .echoReply => 10
  | .discardReq => 11

/-- `Code::from` (num_enum `FromPrimitive`, default `Unknown`). -/
def Code.fromU8 (v : Nat) : Code :=
  if v = 1 then .configureReq
  else if v = 2 then .configureAck
  else if v = 3 then .configureNack
  else if v = 4 then .configureRej
  else if v = 5 then .terminateReq
  else if v = 6 then .terminateAck
  else if v = 7 then .codeRej
  else if v = 8 then .protocolRej
  else if v = 9 then .echoReq
  else if v = 10 then .echoReply
  else if v = 11 then .discardReq
  else .unknown

/-- `wire.rs` `struct OptionVal`: an option code plus its data, the data
held in a `heapless::Vec<u8, MaxOptionLen>` with `MaxOptionLen = U4`. -/
structure OptionVal where
  code : Nat
  data : List Nat
deriving DecidableEq

/-- `OptionVal::new`: `Vec::from_slice(data)` fails (and the `unwrap!`
panics) when the data is longer than `MaxOptionLen = 4` bytes. -/
def OptionVal.new (code : Nat) (data : List Nat) : Except String OptionVal :=
  if data.length > 4 then .error "OptionVal::new: data too long for MaxOptionLen"
  else .ok { code := code, data := data }

/-- `OptionVal::buffer_len`. -/
def OptionVal.buffer_len (o : OptionVal) : Nat :=
  2 + o.data.length

/-- `OptionVal::emit`: `[code, 2 + len, data...]` (`self.data.0.len() as u8 + 2`
is a `u8` cast, hence the `% 256`; it is the identity for data ≤ 4 bytes). -/
def OptionVal.emit (o : OptionVal) : List Nat :=
  o.code :: ((o.data.length + 2) % 256) :: o.data

/-- `Options::buffer_len` (the `Options` newtype is a
`heapless::Vec<OptionVal, MaxOptions>` with `MaxOptions = U6`; we carry the
bare list and enforce the capacity at the push sites). -/
def Options.buffer_len (opts : List OptionVal) : Nat :=
  (opts.map OptionVal.buffer_len).sum

/-- `Options::emit`: concatenate the options in insertion order. -/
def Options.emit (opts : List OptionVal) : List Nat :=
  opts.flatMap OptionVal.emit

/-- `wire.rs` `enum PPPPayload`. -/
inductive PPPPayload where
  | raw (data : List Nat)
  | pap (user pass : List Nat)
  | options (opts : List OptionVal)
deriving DecidableEq

/-- `PPPPayload::buffer_len`. -/
def PPPPayload.buffer_len : PPPPayload → Nat
  | .raw data => data.length
  | .pap user pass => 1 + user.length + 1 + pass.length
  | .options opts => Options.buffer_len opts

/-- `PPPPayload::emit` (functionally: the bytes written into the
`buffer_len`-sized buffer).  `user.len() as u8`/`pass.len() as u8` are `u8`
casts, hence the `% 256`. -/
def PPPPayload.emit : PPPPayload → List Nat
  | .raw data => data
  | .pap user pass =>
    (user.length % 256) :: user ++ (pass.length % 256) :: pass
  | .options opts => Options.emit opts

/-- `wire.rs` `enum Payload`. -/
inductive Payload where
  | raw (data : List Nat)
  | ppp (code : Code) (id : Nat) (payload : PPPPayload)
deriving DecidableEq

/-- `Payload::buffer_len`: a PPP control payload adds the 4-byte
Code/Id/Length header. -/
def Payload.buffer_len : Payload → Nat
  | .raw data => data.length
  | .ppp _ _ payload => 1 + 1 + 2 + payload.buffer_len

/-- `Payload::emit`: `[code, id, length_be, body]` with
`length = buffer_len + 4` as a big-endian `u16`. -/
def Payload.emit : Payload → List Nat
  | .raw data => data
  | .ppp code id payload =>
    let len := (payload.buffer_len + 4) % 65536
    code.toU8 :: (id % 256) :: (len / 256) :: (len % 256) :: payload.emit

/-- `wire.rs` `struct Packet`. -/
structure Packet where
  proto : ProtocolType
  payload : Payload
deriving DecidableEq

/-- `Packet::buffer_len`: 2 protocol bytes plus the payload. -/
def Packet.buffer_len (p : Packet) : Nat :=
  2 + p.payload.buffer_len

/-- `Packet::emit`: big-endian protocol field, then the payload. -/
def Packet.emit (p : Packet) : List Nat :=
  (p.proto.toU16 / 256) :: (p.proto.toU16 % 256) :: p.payload.emit

/-! ## Option FSM (ppp/option_fsm.rs) -/

/-- `ppp/option_fsm.rs` `enum Verdict`. -/
inductive Verdict where
  | ack
  | nack (data : List Nat)
  | rej
deriving DecidableEq

/-- `ppp/option_fsm.rs` `trait Protocol`, as a record of pure functions
over a capability state `S`.  `own_options` enumerates `(code, data)`
pairs; the stateful callbacks return the updated capability state. -/
structure Protocol (S : Type) where
  protocol : ProtocolType
  own_options : S → List (Nat × List Nat)
  own_option_nacked : S → Nat → List Nat → Bool → S
  peer_options_start : S → S
  peer_option_received : S → Nat → List Nat → S × Verdict

/-- `ppp/option_fsm.rs` `enum State`. -/
inductive FsmState where
  | closed
  | reqSent
  | ackReceived
  | ackSent
  | opened
deriving DecidableEq

/-- `ppp/option_fsm.rs` `struct OptionFsm` (the capability object is the
state `proto : S`, its methods live in the ambient `Protocol S`). -/
structure OptionFsm (S : Type) where
  id : Nat
  state : FsmState
  proto : S
deriving DecidableEq

/-- `OptionFsm::new`. -/
def OptionFsm.new {S : Type} (proto : S) : OptionFsm S :=
  { id := 1, state := .closed, proto := proto }

/-- Outcome of `parse_options`: `ok` when the whole TLV stream parses,
`malformed` for the `Err(MalformedError)` return.  The callback state `s`
accumulated before a malformed tail is kept, since the Rust callback has
already run on the well-formed prefix. -/
inductive ParseOutcome (σ : Type) where
  | ok (s : σ)
  | malformed (s : σ)

/-- The loop of `parse_options`, made structurally recursive on a fuel
counter so that it evaluates by kernel reduction.  Each iteration consumes
at least 2 bytes, so any `fuel ≥ pkt.length` (in particular the initial
`pkt.length` used by `parse_options`) never exhausts; the fuel-exhaustion
arm is unreachable. -/
def parse_options_go {σ : Type} (f : σ → Nat → List Nat → Except String σ) :
    Nat → σ → List Nat → Except String (ParseOutcome σ)
  | _, s, [] => .ok (.ok s)
  | _, s, [_] => .ok (.malformed s)
  | 0, s, _ :: _ :: _ => .ok (.malformed s)
  | fuel + 1, s, code :: lenByte :: rest =>
    if 2 + rest.length < lenByte then .ok (.malformed s)
    else if lenByte < 2 then .ok (.malformed s)
    else do
      let s' ← f s code (rest.take (lenByte - 2))
      parse_options_go f fuel s' (rest.drop (lenByte - 2))

/-- `parse_options` from `ppp/option_fsm.rs`, generalized over a stateful
(and possibly panicking) callback `f`: options are `[code, len ≥ 2,
data[len-2]]`; a trailing fragment shorter than 2 bytes, a length < 2 or a
length past the end of the stream is malformed (`Err(MalformedError)`). -/
def parse_options {σ : Type} (f : σ → Nat → List Nat → Except String σ)
    (s : σ) (pkt : List Nat) : Except String (ParseOutcome σ) :=
  parse_options_go f pkt.length s pkt

/-- The response `Code` corresponding to a `Verdict`
(`Ack ↦ ConfigureAck`, `Nack ↦ ConfigureNack`, `Rej ↦ ConfigureRej`). -/
def verdictCode : Verdict → Code
  | .ack => .configureAck
  | .nack _ => .configureNack
  | .rej => .configureRej

/-- The bytes a response option carries for a given verdict: Nack options
carry the suggested data, Ack/Rej options carry the data as received. -/
def storedData (odata : List Nat) : Verdict → List Nat
  | .ack => odata
  | .nack d => d
  | .rej => odata

/-- Accumulator of the option-collection closure in
`OptionFsm::received_configure_req`: current response code, collected
options, capability state. -/
structure CfgAcc (S : Type) where
  code : Code
  opts : List OptionVal
  s : S

/-- One execution of the closure passed to `parse_options` by
`OptionFsm::received_configure_req`: classify the option, upgrade the
response code (clearing previously collected options), and push the
option (panicking — `Except.error` — when `OptionVal::new` overflows the
4-byte data cap or the 6-entry option vector is full). -/
def cfgStep {S : Type} (P : Protocol S) (acc : CfgAcc S) (ocode : Nat)
    (odata : List Nat) : Except String (CfgAcc S) :=
  let res := P.peer_option_received acc.s ocode odata
  let s' := res.1
  -- `let (ret_code, data) = match ... { Ack => (ConfigureAck, odata), ... }`
  let ret_code := verdictCode res.2
  let data := storedData odata res.2
  let code := if acc.code.toU8 < ret_code.toU8 then ret_code else acc.code
  let opts := if acc.code.toU8 < ret_code.toU8 then [] else acc.opts
  if code = ret_code then do
    let ov ← OptionVal.new ocode data
    if opts.length ≥ 6 then .error "rx ConfigureReq: too many options"
    else .ok { code := code, opts := opts ++ [ov], s := s' }
  else .ok { code := code, opts := opts, s := s' }

/-- `OptionFsm::received_configure_req`: read the id, skip the 6-byte
header, run the verdict-collecting fold over the option TLV stream
(`parse_options(..).unwrap()` panics on a malformed stream), and build the
response packet with the request's id. -/
def OptionFsm.received_configure_req {S : Type} (P : Protocol S)
    (fsm : OptionFsm S) (pkt : List Nat) :
    Except String (OptionFsm S × Packet) :=
  -- `let id = pkt[3]` (in-bounds for every caller: `handle` checks len ≥ 6);
  -- the peer_options_start call and the header skip (`&pkt[6..]`) are inlined
  if pkt.length < 6 then .error "too short"
  else do
    let out ← parse_options (cfgStep P)
      ⟨.configureAck, [], P.peer_options_start fsm.proto⟩ (pkt.drop 6)
    match out with
    | .malformed _ =>
      .error "called `Result::unwrap()` on an `Err` value: MalformedError"
    | .ok acc =>
      .ok ({ fsm with proto := acc.s },
           { proto := P.protocol,
             payload := .ppp acc.code (pkt.getD 3 0) (.options acc.opts) })

/-- The option-pushing loop of `OptionFsm::send_configure_request`:
`OptionVal::new` is evaluated first (panicking past 4 data bytes), then
the push into the 6-entry `heapless::Vec` panics when full. -/
def pushOwnOptions (opts : List OptionVal) :
    List (Nat × List Nat) → Except String (List OptionVal)
  | [] => .ok opts
  | (c, d) :: rest => do
    let ov ← OptionVal.new c d
    if opts.length ≥ 6 then .error "tx ConfigureReq: too many options"
    else pushOwnOptions (opts ++ [ov]) rest

/-- `OptionFsm::send_configure_request`: collect our options and attach a
fresh id (`next_id` is `id.wrapping_add(1)`). -/
def OptionFsm.send_configure_request {S : Type} (P : Protocol S)
    (fsm : OptionFsm S) : Except String (OptionFsm S × Packet) := do
  let opts ← pushOwnOptions [] (P.own_options fsm.proto)
  let id := (fsm.id + 1) % 256
  .ok ({ fsm with id := id },
       { proto := P.protocol, payload := .ppp .configureReq id (.options opts) })

/-- `OptionFsm::send_terminate_ack`: reuses the request's id, empty body. -/
def OptionFsm.send_terminate_ack {S : Type} (P : Protocol S) (id : Nat) : Packet :=
  { proto := P.protocol, payload := .ppp .terminateAck id (.raw []) }

/-- `OptionFsm::send_echo_response`: overwrite `pkt[2]` with
`EchoReply` and retransmit `pkt[2..]` verbatim as a raw payload. -/
def OptionFsm.send_echo_response {S : Type} (P : Protocol S) (pkt : List Nat) : Packet :=
  { proto := P.protocol, payload := .raw ((pkt.set 2 (Code.echoReply.toU8)).drop 2) }

/-- `OptionFsm::open`: `assert!(self.state == State::Closed)`, go to
`ReqSent` and send a Configure-Request. -/
def OptionFsm.open' {S : Type} (P : Protocol S) (fsm : OptionFsm S) :
    Except String (OptionFsm S × Packet) :=
  if fsm.state = .closed then
    OptionFsm.send_configure_request P { fsm with state := .reqSent }
  else .error "assertion failed: self.state == State::Closed"

/-- `OptionFsm::handle`: header validation (drop with a log on a short
packet or a bad length field), truncation to the declared length, then the
`(code, state)` dispatch table.  Returns the updated FSM and the packets
passed to `tx`, or an error when the Rust code panics. -/
def OptionFsm.handle {S : Type} (P : Protocol S) (fsm : OptionFsm S)
    (pkt : List Nat) : Except String (OptionFsm S × List Packet) :=
  if pkt.length < 6 then .ok (fsm, [])  -- warn!("PPP packet too short")
  else
    let code := Code.fromU8 (pkt.getD 2 0)
    let id := pkt.getD 3 0
    let len := (pkt.getD 4 0) * 256 + pkt.getD 5 0
    if len + 2 > pkt.length then .ok (fsm, [])  -- warn!("PPP packet len too short")
    else
      let pkt := pkt.take (len + 2)
      match code, fsm.state with
      -- reply EchoReq on state Opened, ignore in all other states
      | .echoReq, .opened => .ok (fsm, [OptionFsm.send_echo_response P pkt])
      | .echoReq, _ => .ok (fsm, [])
      -- DiscardReqs are, well, discarded
      | .discardReq, _ => .ok (fsm, [])
      -- in state Closed, reply to any packet with TerminateAck
      | _, .closed => .ok (fsm, [OptionFsm.send_terminate_ack P id])
      | .configureReq, _ => do
        let res ← OptionFsm.received_configure_req P fsm pkt
        let fsm1 := res.1
        let resp := res.2
        let acked := match resp.payload with
          | .ppp .configureAck _ _ => true
          | _ => false
        match acked, fsm1.state with
        | _, .closed => .error "internal error: entered unreachable code"
        | true, .reqSent => .ok ({ fsm1 with state := .ackSent }, [resp])
        | true, .ackReceived => .ok ({ fsm1 with state := .opened }, [resp])
        | true, .ackSent => .ok ({ fsm1 with state := .ackSent }, [resp])
        | true, .opened => do
          let res2 ← OptionFsm.send_configure_request P fsm1
          .ok ({ res2.1 with state := .ackSent }, [resp, res2.2])
        | false, .ackSent => .ok ({ fsm1 with state := .reqSent }, [resp])
        | false, .opened => do
          let res2 ← OptionFsm.send_configure_request P fsm1
          .ok ({ res2.1 with state := .reqSent }, [resp, res2.2])
        | false, _ => .ok (fsm1, [resp])
      | .configureAck, .reqSent => .ok ({ fsm with state := .ackReceived }, [])
      | .configureAck, .ackSent => .ok ({ fsm with state := .opened }, [])
      | .configureAck, .ackReceived | .configureAck, .opened => do
        let fsm1 := { fsm with state := .reqSent }
        let res ← OptionFsm.send_configure_request P fsm1
        .ok (res.1, [res.2])
      | .configureNack, _ | .configureRej, _ =>
        let is_rej := code = .configureRej
        if pkt.length < 6 then .error "too short"
        else do
          let body := pkt.drop 6
          let out ← parse_options
            (fun s c d => .ok (P.own_option_nacked s c d is_rej)) fsm.proto body
          match out with
          | .malformed _ =>
            .error "called `Result::unwrap()` on an `Err` value: MalformedError"
          | .ok s' =>
            let fsm1 := { fsm with proto := s' }
            match fsm1.state with
            | .closed => .error "internal error: entered unreachable code"
            | .ackSent => do
              let res ← OptionFsm.send_configure_request P fsm1
              .ok (res.1, [res.2])
            | _ => do
              let res ← OptionFsm.send_configure_request P { fsm1 with state := .reqSent }
              .ok (res.1, [res.2])
      | .terminateReq, .opened =>
        .ok ({ fsm with state := .closed }, [OptionFsm.send_terminate_ack P id])
      | .terminateReq, .reqSent | .terminateReq, .ackReceived | .terminateReq, .ackSent =>
        .ok ({ fsm with state := .reqSent }, [OptionFsm.send_terminate_ack P id])
      | _, _ => .ok (fsm, [])  -- log, ignore

/-! ## LCP capability (ppp/lcp.rs) -/

/-- `ppp/lcp.rs` `enum AuthType`. -/
inductive AuthType where
  | none
  | pap
deriving DecidableEq

/-- `ppp/lcp.rs` `struct LCP`. -/
structure LCP where
  auth : AuthType
  asyncmap_remote : Nat
  asyncmap : Nat
  asyncmap_rej : Bool
deriving DecidableEq

/-- `LCP::new`. -/
def LCP.new : LCP :=
  { auth := .none, asyncmap_remote := 0xFFFFFFFF, asyncmap := 0,
    asyncmap_rej := false }

/-- `u32::from_be_bytes` on a 4-byte slice. -/
def beU32 (data : List Nat) : Nat :=
  data.foldl (fun acc b => acc * 256 + b) 0

/-- `u32::to_be_bytes`. -/
def beU32Bytes (v : Nat) : List Nat :=
  [v / 16777216 % 256, v / 65536 % 256, v / 256 % 256, v % 256]

/-- `<LCP as Protocol>::peer_option_received`: option 2 (Asyncmap) with 4
bytes is adopted as `asyncmap_remote` and acked, otherwise rejected;
option 3 (Auth) equal to `C0 23` (PAP) is acked, anything else is nacked
with `C0 23`; unknown options are rejected. -/
def LCP.peer_option_received (s : LCP) (code : Nat) (data : List Nat) :
    LCP × Verdict :=
  if code = 2 then
    if data.length = 4 then ({ s with asyncmap_remote := beU32 data }, .ack)
    else (s, .rej)
  else if code = 3 then
    if data = [0xc0, 0x23] then ({ s with auth := .pap }, .ack)
    else (s, .nack [0xc0, 0x23])
  else (s, .rej)

/-- `<LCP as Protocol>::own_options`: request the asyncmap unless the peer
rejected it. -/
def LCP.own_options (s : LCP) : List (Nat × List Nat) :=
  if !s.asyncmap_rej then [(2, beU32Bytes s.asyncmap)] else []

/-- `<LCP as Protocol>::own_option_nacked`. -/
def LCP.own_option_nacked (s : LCP) (code : Nat) (data : List Nat)
    (is_rej : Bool) : LCP :=
  if code = 2 then
    if !is_rej ∧ data.length = 4 then { s with asyncmap := beU32 data }
    else { s with asyncmap_rej := true }
  else s

/-- `<LCP as Protocol>::peer_options_start`: reset `auth` to `None`. -/
def LCP.peer_options_start (s : LCP) : LCP :=
  { s with auth := .none }

/-- The `Protocol` implementation of `LCP`. -/
def lcpProto : Protocol LCP :=
  { protocol := .lcp,
    own_options := LCP.own_options,
    own_option_nacked := LCP.own_option_nacked,
    peer_options_start := LCP.peer_options_start,
    peer_option_received := LCP.peer_option_received }

/-! ## PAP (ppp/pap.rs) -/

/-- `ppp/pap.rs` `enum State`. -/
inductive PAPState where
  | closed
  | reqSent
  | opened
deriving DecidableEq

/-- `ppp/pap.rs` `struct PAP`. -/
structure PAP where
  state : PAPState
  id : Nat
  username : List Nat
  password : List Nat
deriving DecidableEq

/-- `PAP::new`: asserts username and password fit in a `u8` length. -/
def PAP.new (username password : List Nat) : Except String PAP :=
  if username.length > 255 then
    .error "assertion failed: username.len() <= u8::MAX as usize"
  else if password.length > 255 then
    .error "assertion failed: password.len() <= u8::MAX as usize"
  else
    .ok { state := .closed, id := 1, username := username, password := password }

/-- `PAP::send_configure_request`: Authenticate-Request with a fresh id and
the `PAP(user, pass)` payload. -/
def PAP.send_configure_request (pap : PAP) : PAP × Packet :=
  let id := (pap.id + 1) % 256
  ({ pap with id := id },
   { proto := .pap, payload := .ppp .configureReq id (.pap pap.username pap.password) })

/-- `PAP::open`: `assert!(self.state == State::Closed)`, go to `ReqSent`
and send the Authenticate-Request. -/
def PAP.open' (pap : PAP) : Except String (PAP × Packet) :=
  if pap.state = .closed then .ok (PAP.send_configure_request { pap with state := .reqSent })
  else .error "assertion failed: self.state == State::Closed"

/-- `PAP::handle`: header checks (note the bounds check compares `len`,
not `len + 2`, against the packet length; the subsequent
`&mut pkt[..len + 2]` slice panics when `len + 2 > pkt.len()`), then the
`(code, state)` dispatch. -/
def PAP.handle (pap : PAP) (pkt : List Nat) : Except String (PAP × List Packet) :=
  if pkt.length < 6 then .ok (pap, [])  -- info!("warn: too short")
  else
    let code := Code.fromU8 (pkt.getD 2 0)
    let len := (pkt.getD 4 0) * 256 + pkt.getD 5 0
    if len > pkt.length then .ok (pap, [])  -- info!("warn: len too short")
    else if len + 2 > pkt.length then
      .error "range end index out of range for slice"  -- `&mut pkt[..len + 2]`
    else
      match code, pap.state with
      | .configureAck, .reqSent => .ok ({ pap with state := .opened }, [])
      | .configureNack, .reqSent =>
        let res := PAP.send_configure_request pap
        .ok (res.1, [res.2])
      | _, _ => .ok (pap, [])

/-! ## PPPoS facade (pppos/mod.rs) -/

/-- `Result::unwrap()` on the writer results inside the `tx` closure of
`PPPoS::poll`: an `Err(BufferFullError)` panics. -/
def unwrapWriter (r : Except BufferFullError FrameWriter) :
    Except String FrameWriter :=
  match r with
  | .error _ => .error "called `Result::unwrap()` on an `Err` value: BufferFullError"
  | .ok w => .ok w

/-- The `tx` closure of `PPPoS::poll`: emit the packet into a 128-byte
stack buffer (`assert!(len <= buf.len())`), then frame it through the
shared writer (`start`, `append` of the emitted bytes, `finish`),
`unwrap`ping every `BufferFullError`. -/
def pollTx (w : FrameWriter) (pkt : Packet) : Except String FrameWriter :=
  if pkt.buffer_len > 128 then .error "assertion failed: len <= buf.len()"
  else do
    let w ← unwrapWriter w.start
    let w ← unwrapWriter (w.append pkt.emit)
    unwrapWriter w.finish

/-- The writer `PPPoS::poll` builds over the caller's tx buffer:
`FrameWriter::new(tx_buf)`, i.e. the conservative default asyncmap. -/
def pollInitWriter (cap : Nat) : FrameWriter :=
  FrameWriter.new cap

/-- `PPPoS::send`: frame one IPv4 packet using the negotiated
`asyncmap_remote` of the LCP capability, protocol field `0x0021`
big-endian, returning the written bytes and `w.len()`. -/
def PPPoS.send (lcp : LCP) (pkt : List Nat) (cap : Nat) :
    Except BufferFullError (List Nat × Nat) := do
  let w ← (FrameWriter.new_with_asyncmap cap lcp.asyncmap_remote).start
  let w ← w.append [ProtocolType.ipv4.toU16 / 256 % 256, ProtocolType.ipv4.toU16 % 256]
  let w ← w.append pkt
  let w ← w.finish
  .ok (w.out, w.out.length)

/-! ## Derived notions used to state the theorems -/

/-- The byte expansion produced by `FrameWriter::append_escaped` (proved
to match it in `append_escaped_ok` below): each byte is either emitted
literally or as the pair `0x7d, b ^ 0x20`. -/
def escCat (asyncmap : Nat) (data : List Nat) : List Nat :=
  data.flatMap fun b => if escByte asyncmap b then [0x7d, b ^^^ 0x20] else [b]

/-- The sequence of verdicts produced by threading
`peer_option_received` through an option list from capability state `s`
(each call may update the state, so verdicts are position dependent). -/
def verdictsFrom {S : Type} (P : Protocol S) (s : S) :
    List (Nat × List Nat) → List ((Nat × List Nat) × Verdict)
  | [] => []
  | (c, d) :: rest =>
    let res := P.peer_option_received s c d
    ((c, d), res.2) :: verdictsFrom P res.1 rest

/-- The capability state after threading `peer_option_received` through an
option list. -/
def stateAfter {S : Type} (P : Protocol S) (s : S) :
    List (Nat × List Nat) → S
  | [] => s
  | (c, d) :: rest => stateAfter P (P.peer_option_received s c d).1 rest

/-- The larger of two `Code`s under the derived Rust ordering (numeric on
the `u8` discriminants). -/
def codeMax (a b : Code) : Code :=
  if a.toU8 < b.toU8 then b else a

/-- The worst verdict code over a verdict sequence, starting from
`ConfigureAck` (the order being Ack < Nack < Rej). -/
def worstCode (vs : List Verdict) : Code :=
  vs.foldl (fun acc v => codeMax acc (verdictCode v)) .configureAck

/-- The response options a Configure-Req answer should carry: those whose
verdict equals the winning code, in order, with the verdict-specific
data. -/
def winningOpts (win : Code) (vs : List ((Nat × List Nat) × Verdict)) :
    List OptionVal :=
  (vs.filter fun odv => verdictCode odv.2 = win).map
    fun odv => { code := odv.1.1, data := storedData odv.1.2 odv.2 }

/-- Serialize an option list as the on-wire TLV stream
`[code, len(data) + 2, data...]*`. -/
def serializeOpts (opts : List (Nat × List Nat)) : List Nat :=
  opts.flatMap fun cd => cd.1 :: (cd.2.length + 2) :: cd.2

/-- Sequentially run a stateful, possibly-panicking callback over an
already-parsed option list (the pure counterpart of `parse_options` on a
well-formed stream; proved equal to it in `parse_options_serialized`). -/
def runOpts {σ : Type} (f : σ → Nat → List Nat → Except String σ) :
    σ → List (Nat × List Nat) → Except String σ
  | s, [] => .ok s
  | s, (c, d) :: rest => do
    let s' ← f s c d
    runOpts f s' rest

/-- The worst verdict code over a verdict sequence starting from an
arbitrary accumulator code (generalizes `worstCode`). -/
def worstFrom (c : Code) (vs : List Verdict) : Code :=
  vs.foldl (fun acc v => codeMax acc (verdictCode v)) c

/-! # Theorems -/

/-! ## Frame reader basics -/

theorem consume_nil (r : FrameReader) : r.consume [] = (r, 0) := rfl

theorem consume_complete (r : FrameReader) (h : r.state = .complete)
    (b : Nat) (rest : List Nat) : r.consume (b :: rest) = (r, 0) := by
  simp [FrameReader.consume, h]

theorem consume_cons (r : FrameReader) (h : r.state ≠ .complete)
    (b : Nat) (rest : List Nat) :
    r.consume (b :: rest) =
      (((r.consumeByte b).consume rest).1, ((r.consumeByte b).consume rest).2 + 1) := by
  simp [FrameReader.consume, h]

theorem consume_append_all (xs : List Nat) : ∀ (r r' : FrameReader) (ys : List Nat),
    r.consume xs = (r', xs.length) →
    r.consume (xs ++ ys) = ((r'.consume ys).1, xs.length + (r'.consume ys).2) := by
  induction xs with
  | nil =>
    intro r r' ys h
    simp only [consume_nil, Prod.mk.injEq] at h
    simp [h.1]
  | cons x xs ih =>
    intro r r' ys h
    have hs : r.state ≠ .complete := by
      intro hc
      rw [consume_complete r hc] at h
      have h2 := congrArg Prod.snd h
      simp at h2
    rw [consume_cons r hs] at h
    rw [List.cons_append, consume_cons r hs]
    have h1 := congrArg Prod.fst h
    have h2 := congrArg Prod.snd h
    simp only [List.length_cons] at h1 h2
    have h2' : ((r.consumeByte x).consume xs).2 = xs.length := by omega
    have := ih (r.consumeByte x) r' ys (by rw [Prod.ext_iff]; exact ⟨h1, h2'⟩)
    rw [this]
    simp only [List.length_cons, Prod.mk.injEq, true_and]
    omega

/-- C4: in state `Data`, on the flag byte `0x7E` the frame is accepted
(state `Complete`) iff `len ≥ 3 ∧ buf[0] = 0x03 ∧ crc16(0x00FF, buf[..len])
= 0xF0B8`; on acceptance `receive()` exposes exactly `buf[1..len-2]`,
and on failure no frame is surfaced and the reader resumes in `Address`;
the buffered bytes are untouched either way. -/
theorem c4_completed_frame_validity (r : FrameReader) (h : r.state = .data) :
    ((r.consumeByte 0x7e).state = .complete ↔
      (3 ≤ r.buf.length ∧ r.buf.headD 0 = 0x03 ∧ crc16 0x00FF r.buf = 0xf0b8))
    ∧ ((r.consumeByte 0x7e).state = .complete →
        ((r.consumeByte 0x7e).receive).1 =
          some ((r.buf.drop 1).take (r.buf.length - 3)))
    ∧ ((r.consumeByte 0x7e).state ≠ .complete →
        (r.consumeByte 0x7e).state = .address ∧
        ((r.consumeByte 0x7e).receive).1 = none)
    ∧ (r.consumeByte 0x7e).buf = r.buf := by
  have hb : r.consumeByte 0x7e =
      { r with state :=
          if 3 ≤ r.buf.length ∧ r.buf.headD 0 = 0x03 ∧ crc16 0x00FF r.buf = 0xf0b8
          then .complete else .address } := by
    unfold FrameReader.consumeByte
    rw [h]
    simp
  rw [hb]
  by_cases hok : 3 ≤ r.buf.length ∧ r.buf.headD 0 = 0x03 ∧ crc16 0x00FF r.buf = 0xf0b8
  · rw [if_pos hok]
    exact ⟨⟨fun _ => hok, fun _ => rfl⟩,
           fun _ => by simp [FrameReader.receive],
           fun hne => absurd rfl hne, rfl⟩
  · rw [if_neg hok]
    refine ⟨⟨fun hc => ?_, fun hp => absurd hp hok⟩,
            fun hc => ?_, fun _ => ⟨rfl, by simp [FrameReader.receive]⟩, rfl⟩
    · exact absurd hc (by simp)
    · exact absurd hc (by simp)

/-- Witness for C4: a concrete valid LCP Configure-Request frame body is
accepted and `receive` strips the control byte and the FCS. -/
theorem c4_witness :
    ((⟨.data, false, [0x03, 0xC0, 0x21, 0x01, 0x01, 0x00, 0x04, 0xD1, 0xB5], 16⟩ :
        FrameReader).consumeByte 0x7e).state = .complete ∧
    (((⟨.data, false, [0x03, 0xC0, 0x21, 0x01, 0x01, 0x00, 0x04, 0xD1, 0xB5], 16⟩ :
        FrameReader).consumeByte 0x7e).receive).1 =
      some [0xC0, 0x21, 0x01, 0x01, 0x00, 0x04] := by
  have h := c4_completed_frame_validity
    ⟨.data, false, [0x03, 0xC0, 0x21, 0x01, 0x01, 0x00, 0x04, 0xD1, 0xB5], 16⟩ rfl
  have hc := h.1.mpr (by decide)
  exact ⟨hc, by rw [h.2.1 hc]; decide⟩

/-- C5: while the reader holds a completed frame (state `Complete`),
`consume` accepts no further bytes: the reader is unchanged and the
returned count is 0, which is strictly less than the length of any
non-empty input. -/
theorem c5_reader_stall (r : FrameReader) (h : r.state = .complete)
    (data : List Nat) (hne : data ≠ []) :
    r.consume data = (r, 0) ∧ (r.consume data).2 < data.length := by
  cases data with
  | nil => exact absurd rfl hne
  | cons b rest =>
    refine ⟨consume_complete r h b rest, ?_⟩
    rw [consume_complete r h b rest]
    simp

/-- Witness for C5: a concrete completed reader refuses one further byte. -/
theorem c5_witness :
    (⟨.complete, false, [3, 7, 8, 9], 8⟩ : FrameReader).consume [0x55] =
      ((⟨.complete, false, [3, 7, 8, 9], 8⟩ : FrameReader), 0) ∧
    ((⟨.complete, false, [3, 7, 8, 9], 8⟩ : FrameReader).consume [0x55]).2 < 1 :=
  c5_reader_stall ⟨.complete, false, [3, 7, 8, 9], 8⟩ rfl [0x55] (by decide)

/-! ## PAP and option-FSM panic claims -/

/-- C10: every inbound PAP packet of total length `L ≥ 6` whose declared
length field `len` satisfies `len ≤ L` but `len + 2 > L` passes the bounds
check (which compares `len` instead of `len + 2` against the packet
length) and then panics on the slice `pkt[..len + 2]`. -/
theorem c10_pap_length_check_panics (pap : PAP) (pkt : List Nat)
    (h6 : 6 ≤ pkt.length)
    (hlen : (pkt.getD 4 0) * 256 + pkt.getD 5 0 ≤ pkt.length)
    (hslice : pkt.length < (pkt.getD 4 0) * 256 + pkt.getD 5 0 + 2) :
    PAP.handle pap pkt = .error "range end index out of range for slice" := by
  unfold PAP.handle
  rw [if_neg (by omega), if_neg (by omega), if_pos (by omega)]

/-- Witness for C10: the PAP-Ack `C0 23 02 01 00 06` has total length 6 and
declared length 6, so `len ≤ L`, `len + 2 > L`, and `handle` panics. -/
theorem c10_witness :
    6 ≤ ([0xc0, 0x23, 2, 1, 0, 6] : List Nat).length ∧
    PAP.handle ⟨.reqSent, 1, [], []⟩ [0xc0, 0x23, 2, 1, 0, 6] =
      .error "range end index out of range for slice" :=
  ⟨by decide,
   c10_pap_length_check_panics ⟨.reqSent, 1, [], []⟩ [0xc0, 0x23, 2, 1, 0, 6]
     (by decide) (by decide) (by decide)⟩

/-- C9: a well-formed inbound Configure-Req whose option data is longer
than 4 bytes and whose verdict echoes the received data panics in
`OptionVal::new` instead of producing a response: here the unknown LCP
option `42 07 01 02 03 04 05` (5 data bytes, verdict Rej) inside the
packet `C0 21 01 01 00 0B ...` makes `received_configure_req` panic. -/
theorem c9_optionval_new_panics :
    OptionFsm.received_configure_req lcpProto
      ⟨1, .reqSent, LCP.new⟩
      [0xc0, 0x21, 0x01, 0x01, 0x00, 0x0b, 0x42, 0x07, 1, 2, 3, 4, 5] =
      .error "OptionVal::new: data too long for MaxOptionLen" := by
  rfl

/-- C3: a Configure-Req, Configure-Nack or Configure-Rej whose option TLV
stream is malformed (here a trailing 1-byte fragment) is not dropped: the
`parse_options(..).unwrap()` in `OptionFsm::handle` /
`received_configure_req` panics.  All three packets are
`C0 21 <code> 07 00 05 03` handled from state `ReqSent`. -/
theorem c3_malformed_option_stream_panics :
    OptionFsm.handle lcpProto ⟨1, .reqSent, LCP.new⟩ [0xc0, 0x21, 1, 7, 0, 5, 3] =
      .error "called `Result::unwrap()` on an `Err` value: MalformedError" ∧
    OptionFsm.handle lcpProto ⟨1, .reqSent, LCP.new⟩ [0xc0, 0x21, 3, 7, 0, 5, 3] =
      .error "called `Result::unwrap()` on an `Err` value: MalformedError" ∧
    OptionFsm.handle lcpProto ⟨1, .reqSent, LCP.new⟩ [0xc0, 0x21, 4, 7, 0, 5, 3] =
      .error "called `Result::unwrap()` on an `Err` value: MalformedError" := by
  refine ⟨?_, ?_, ?_⟩ <;> rfl

/-! ## CRC-16 facts -/

theorem crc16_append (seed : Nat) (a b : List Nat) :
    crc16 seed (a ++ b) = crc16 (crc16 seed a) b := by
  unfold crc16
  exact List.foldl_append crcStep seed a b

theorem xor_mod_two_pow (a b n : Nat) :
    (a ^^^ b) % 2 ^ n = (a % 2 ^ n) ^^^ (b % 2 ^ n) := by
  apply Nat.eq_of_testBit_eq
  intro i
  simp only [Nat.testBit_mod_two_pow, Nat.testBit_xor]
  cases Decidable.em (i < n) with
  | inl h => simp [h]
  | inr h => simp [h]

theorem xor_mod_256 (a b : Nat) : (a ^^^ b) % 256 = (a % 256) ^^^ (b % 256) := by
  have h := xor_mod_two_pow a b 8
  norm_num at h
  exact h

theorem xor_shiftRight (a b n : Nat) :
    (a ^^^ b) >>> n = (a >>> n) ^^^ (b >>> n) := by
  apply Nat.eq_of_testBit_eq
  intro i
  simp [Nat.testBit_shiftRight, Nat.testBit_xor]

theorem xor_cancel_left (a x : Nat) : a ^^^ (a ^^^ x) = x := by
  rw [← Nat.xor_assoc, Nat.xor_self, Nat.zero_xor]

theorem xor_lt_256 {x y : Nat} (hx : x < 256) (hy : y < 256) : x ^^^ y < 256 := by
  have h8 : (256 : Nat) = 2 ^ 8 := by norm_num
  rw [h8] at hx hy ⊢
  exact Nat.xor_lt_two_pow hx hy

theorem xor_lt_65536 {x y : Nat} (hx : x < 65536) (hy : y < 65536) :
    x ^^^ y < 65536 := by
  have h16 : (65536 : Nat) = 2 ^ 16 := by norm_num
  rw [h16] at hx hy ⊢
  exact Nat.xor_lt_two_pow hx hy

theorem shiftRight8_eq_div (x : Nat) : x >>> 8 = x / 256 := by
  rw [Nat.shiftRight_eq_div_pow]

theorem shiftRight4_eq_div (x : Nat) : x >>> 4 = x / 16 := by
  rw [Nat.shiftRight_eq_div_pow]

theorem crcStep_lt (seed b : Nat) (h : seed < 65536) : crcStep seed b < 65536 := by
  simp only [crcStep]
  have he : (seed % 256) ^^^ (b % 256) < 256 := xor_lt_256 (by omega) (by omega)
  have hf : ((seed % 256) ^^^ (b % 256)) ^^^
      ((((seed % 256) ^^^ (b % 256)) <<< 4) % 256) < 256 :=
    xor_lt_256 he (by omega)
  have h1 : seed >>> 8 < 65536 := by rw [shiftRight8_eq_div]; omega
  apply xor_lt_65536 h1
  apply xor_lt_65536 (by omega)
  apply xor_lt_65536 (by omega)
  rw [shiftRight4_eq_div]
  omega

theorem crc16_lt (data : List Nat) : ∀ seed : Nat, seed < 65536 →
    crc16 seed data < 65536 := by
  induction data with
  | nil => intro seed h; exact h
  | cons b rest ih =>
    intro seed h
    exact ih (crcStep seed b) (crcStep_lt seed b h)

theorem crc_res1 (c : Nat) :
    crcStep c ((c ^^^ 65535) % 256) = (c >>> 8) ^^^ 3960 := by
  simp only [crcStep]
  have h0 : ((c ^^^ 65535) % 256) % 256 = (c ^^^ 65535) % 256 := by omega
  have h2 : (c ^^^ 65535) % 256 = (c % 256) ^^^ 255 := by
    rw [xor_mod_256]
  have h3 : (c % 256) ^^^ ((c % 256) ^^^ 255) = 255 := xor_cancel_left _ _
  rw [h0, h2, h3]
  congr 1

theorem crc_res2 (c : Nat) (hc : c < 65536) :
    crcStep ((c >>> 8) ^^^ 3960) ((c ^^^ 65535) >>> 8) = 61624 := by
  have hc8 : c >>> 8 < 256 := by rw [shiftRight8_eq_div]; omega
  have hseedmod : ((c >>> 8) ^^^ 3960) % 256 = (c >>> 8) ^^^ 120 := by
    rw [xor_mod_256, Nat.mod_eq_of_lt hc8]
  have hbval : (c ^^^ 65535) >>> 8 = (c >>> 8) ^^^ 255 := by
    rw [xor_shiftRight]
    congr 1
  have hblt : (c >>> 8) ^^^ 255 < 256 := xor_lt_256 hc8 (by omega)
  have hbmod : ((c >>> 8) ^^^ 255) % 256 = (c >>> 8) ^^^ 255 := Nat.mod_eq_of_lt hblt
  have hzero : (c >>> 8) >>> 8 = 0 := by
    rw [shiftRight8_eq_div (c >>> 8)]
    omega
  have hseedshift : ((c >>> 8) ^^^ 3960) >>> 8 = 15 := by
    rw [xor_shiftRight, hzero, Nat.zero_xor]
    decide
  have he : ((c >>> 8) ^^^ 120) ^^^ ((c >>> 8) ^^^ 255) = 135 := by
    rw [Nat.xor_comm (c >>> 8) 120, Nat.xor_assoc, xor_cancel_left]
    decide
  simp only [crcStep]
  rw [hseedshift, hseedmod, hbval, hbmod, he]
  decide

/-- The RFC 1662 magic-residue property of this CRC: appending the
little-endian complement FCS to any running CRC value yields `0xF0B8`. -/
theorem crc_residue (c : Nat) (hc : c < 65536) :
    crc16 c [(c ^^^ 65535) % 256, ((c ^^^ 65535) / 256) % 256] = 61624 := by
  have hlt : c ^^^ 65535 < 65536 := xor_lt_65536 hc (by omega)
  have hdiv : ((c ^^^ 65535) / 256) % 256 = (c ^^^ 65535) >>> 8 := by
    rw [shiftRight8_eq_div]
    omega
  show crcStep (crcStep c ((c ^^^ 65535) % 256)) (((c ^^^ 65535) / 256) % 256) = 61624
  rw [hdiv, crc_res1, crc_res2 c hc]

/-! ## Frame writer facts -/

theorem escCat_nil (am : Nat) : escCat am [] = [] := rfl

theorem escCat_cons (am b : Nat) (rest : List Nat) :
    escCat am (b :: rest) =
      (if escByte am b then [0x7d, b ^^^ 0x20] else [b]) ++ escCat am rest := by
  simp [escCat]

theorem escCat_append (am : Nat) (a b : List Nat) :
    escCat am (a ++ b) = escCat am a ++ escCat am b := by
  simp [escCat]

theorem escCat_length_le (am : Nat) (data : List Nat) :
    (escCat am data).length ≤ 2 * data.length := by
  induction data with
  | nil => simp [escCat]
  | cons b rest ih =>
    rw [escCat_cons]
    by_cases h : escByte am b <;> simp [h] <;> omega

theorem append_raw_ok (w : FrameWriter) (data : List Nat)
    (h : w.out.length + data.length ≤ w.bufCap) :
    w.append_raw data = .ok { w with out := w.out ++ data } := by
  unfold FrameWriter.append_raw
  rw [if_neg (by omega)]

theorem append_escaped_ok (data : List Nat) : ∀ w : FrameWriter,
    w.out.length + 2 * data.length ≤ w.bufCap →
    w.append_escaped data = .ok { w with out := w.out ++ escCat w.asyncmap data } := by
  induction data with
  | nil =>
    intro w h
    simp [FrameWriter.append_escaped, escCat]
  | cons b rest ih =>
    intro w h
    simp only [List.length_cons] at h
    rw [FrameWriter.append_escaped]
    cases hesc : escByte w.asyncmap b with
    | true =>
      rw [if_pos rfl, append_raw_ok w _ (by simp; omega)]
      show FrameWriter.append_escaped { w with out := w.out ++ [0x7d, b ^^^ 0x20] } rest = _
      rw [ih _ (by simp; omega)]
      simp [escCat_cons, hesc]
    | false =>
      rw [if_neg (by simp), append_raw_ok w _ (by simp; omega)]
      show FrameWriter.append_escaped { w with out := w.out ++ [b] } rest = _
      rw [ih _ (by simp; omega)]
      simp [escCat_cons, hesc]

theorem append_ok (w : FrameWriter) (data : List Nat)
    (h : w.out.length + 2 * data.length ≤ w.bufCap) :
    w.append data =
      .ok { w with out := w.out ++ escCat w.asyncmap data,
                   crc := crc16 w.crc data } := by
  rw [FrameWriter.append, append_escaped_ok data w h]
  rfl

theorem start_ok (w : FrameWriter) (h : w.out.length + 4 ≤ w.bufCap) :
    w.start =
      .ok { w with out := (w.out ++ [0x7e, 0xff]) ++ escCat w.asyncmap [0x03],
                   crc := crc16 0xFFFF [0xFF, 0x03] } := by
  rw [FrameWriter.start,
      append_raw_ok { w with crc := crc16 0xFFFF [0xFF, 0x03] } _ (by simp; omega)]
  show FrameWriter.append_escaped _ [0x03] = _
  rw [append_escaped_ok [0x03] _ (by simp; omega)]

theorem finish_ok (w : FrameWriter) (h : w.out.length + 5 ≤ w.bufCap) :
    w.finish =
      .ok { w with out := (w.out ++ escCat w.asyncmap [(w.crc ^^^ 0xFFFF) % 256, ((w.crc ^^^ 0xFFFF) / 256) % 256]) ++ [0x7e] } := by
  rw [FrameWriter.finish, append_escaped_ok _ w (by simp; omega)]
  show FrameWriter.append_raw _ [0x7e] = _
  rw [append_raw_ok _ _ ?_]
  · simp
    have := escCat_length_le w.asyncmap
      [(w.crc ^^^ 0xFFFF) % 256, ((w.crc ^^^ 0xFFFF) / 256) % 256]
    simp at this
    omega

/-- The full encoded frame: flag, address, then the escaped control byte,
payload and FCS, then the closing flag. -/
theorem encodeFrame_ok (am : Nat) (P : List Nat) (cap : Nat)
    (h : 2 * P.length + 9 ≤ cap) :
    encodeFrame am P cap =
      .ok { out := [0x7e, 0xff] ++ escCat am (0x03 :: (P ++ [(crc16 0xFFFF ([0xFF, 0x03] ++ P) ^^^ 0xFFFF) % 256, ((crc16 0xFFFF ([0xFF, 0x03] ++ P) ^^^ 0xFFFF) / 256) % 256])) ++ [0x7e],
            bufCap := cap,
            crc := crc16 0xFFFF ([0xFF, 0x03] ++ P),
            asyncmap := am } := by
  have hesc3 := escCat_length_le am [0x03]
  have hescP := escCat_length_le am P
  rw [encodeFrame]
  rw [start_ok (FrameWriter.new_with_asyncmap cap am)
        (by simp [FrameWriter.new_with_asyncmap]; omega)]
  show FrameWriter.append _ P >>= _ = _
  rw [append_ok _ P (by simp [FrameWriter.new_with_asyncmap]; simp at hesc3; omega)]
  show FrameWriter.finish _ = _
  rw [finish_ok _ (by simp [FrameWriter.new_with_asyncmap]; simp at hesc3 hescP; omega)]
  simp [FrameWriter.new_with_asyncmap, escCat, crc16_append, List.append_assoc]
  constructor
  · rw [show crc16 65535 (255 :: 3 :: P) = crc16 (crc16 65535 [255, 3]) P from rfl]
  · rfl

/-! ## Frame reader vs escaped data -/

theorem escByte_true_cases {am b : Nat} (h : escByte am b = true) :
    b ≤ 0x1f ∨ b = 0x7d ∨ b = 0x7e := by
  unfold escByte at h
  by_cases h31 : b ≤ 0x1f
  · exact Or.inl h31
  · rw [if_neg h31] at h
    by_cases h125 : b = 0x7d
    · exact Or.inr (Or.inl h125)
    · rw [if_neg h125] at h
      by_cases h126 : b = 0x7e
      · exact Or.inr (Or.inr h126)
      · rw [if_neg h126] at h
        exact absurd h (by simp)

theorem escByte_false_ne {am b : Nat} (h : escByte am b = false) :
    b ≠ 0x7d ∧ b ≠ 0x7e := by
  unfold escByte at h
  constructor
  · intro hb
    subst hb
    simp at h
  · intro hb
    subst hb
    simp at h

theorem xor32_small : ∀ b : Nat, b < 32 → b ^^^ 32 = b + 32 := by decide

theorem xor32_xor32 (b : Nat) : (b ^^^ 32) ^^^ 32 = b := by
  rw [Nat.xor_assoc, Nat.xor_self, Nat.xor_zero]

theorem consumeByte_data_append (r : FrameReader) (hs : r.state = .data) (c : Nat)
    (h126 : c ≠ 0x7e) (h125 : c ≠ 0x7d) (hcap : r.buf.length < r.bufCap) :
    r.consumeByte c =
      { r with buf := r.buf ++ [if r.escape then c ^^^ 0x20 else c],
               escape := false } := by
  have hcap' : ¬ (r.buf.length ≥ r.bufCap) := by omega
  simp [FrameReader.consumeByte, hs, h126, h125, hcap']

theorem consumeByte_data_escape (r : FrameReader) (hs : r.state = .data) :
    r.consumeByte 0x7d = { r with escape := true } := by
  simp [FrameReader.consumeByte, hs]

theorem consume_escCat (am : Nat) (X : List Nat) : ∀ r : FrameReader,
    r.state = .data → r.escape = false → (∀ b ∈ X, b < 256) →
    r.buf.length + X.length ≤ r.bufCap →
    r.consume (escCat am X) = ({ r with buf := r.buf ++ X }, (escCat am X).length) := by
  induction X with
  | nil =>
    intro r hs he _ _
    simp [escCat, consume_nil, ← he]
  | cons b rest ih =>
    intro r hs he hb hcap
    have hnotc : r.state ≠ .complete := by rw [hs]; intro h; exact RState.noConfusion h
    have hblt : b < 256 := hb b (List.mem_cons_self b rest)
    have hbrest : ∀ x ∈ rest, x < 256 := fun x hx => hb x (List.mem_cons_of_mem b hx)
    have hcap1 : r.buf.length < r.bufCap := by
      simp only [List.length_cons] at hcap
      omega
    have hcap2 : ({ r with buf := r.buf ++ [b], escape := false } :
        FrameReader).buf.length + rest.length ≤
        ({ r with buf := r.buf ++ [b], escape := false } : FrameReader).bufCap := by
      simp only [List.length_cons] at hcap
      simp
      omega
    rw [escCat_cons]
    cases hesc : escByte am b with
    | false =>
      have hne := escByte_false_ne hesc
      rw [if_neg (by simp)]
      show r.consume (b :: escCat am rest) = _
      rw [consume_cons r hnotc]
      have hr1 : r.consumeByte b = { r with buf := r.buf ++ [b], escape := false } := by
        rw [consumeByte_data_append r hs b hne.2 hne.1 hcap1, he]
        simp
      rw [hr1, ih { r with buf := r.buf ++ [b], escape := false } hs rfl hbrest hcap2]
      simp [← he, List.append_assoc]
    | true =>
      have hc126 : b ^^^ 0x20 ≠ 0x7e := by
        rcases escByte_true_cases hesc with h31 | h125 | h126
        · rw [xor32_small b (by omega)]
          omega
        · subst h125; decide
        · subst h126; decide
      have hc125 : b ^^^ 0x20 ≠ 0x7d := by
        rcases escByte_true_cases hesc with h31 | h125 | h126
        · rw [xor32_small b (by omega)]
          omega
        · subst h125; decide
        · subst h126; decide
      rw [if_pos rfl]
      show r.consume (0x7d :: (b ^^^ 0x20) :: escCat am rest) = _
      rw [consume_cons r hnotc]
      rw [consumeByte_data_escape r hs]
      rw [consume_cons { r with escape := true } hnotc]
      have hr2 : ({ r with escape := true } : FrameReader).consumeByte (b ^^^ 0x20) =
          { r with buf := r.buf ++ [b], escape := false } := by
        rw [consumeByte_data_append { r with escape := true } hs (b ^^^ 0x20)
              hc126 hc125 hcap1]
        simp [xor32_xor32]
      rw [hr2, ih { r with buf := r.buf ++ [b], escape := false } hs rfl hbrest hcap2]
      simp [← he, List.append_assoc]

/-- C1: frame encode/decode round-trip.  For every payload `P` of bytes
that fits the reader's buffer (`|P| + 3 ≤ rcap`) and any asyncmap,
encoding `P` with `FrameWriter` (`start(); append(P); finish()`, writer
capacity `2|P| + 9` sufficing) and feeding the produced bytes to a fresh
`FrameReader` consumes exactly the encoded length, completes exactly one
frame, and `receive()` exposes exactly `P`. -/
theorem c1_frame_roundtrip (am : Nat) (P : List Nat) (cap rcap : Nat)
    (hb : ∀ b ∈ P, b < 256) (hcap : 2 * P.length + 9 ≤ cap)
    (hrcap : P.length + 3 ≤ rcap) :
    ∃ w : FrameWriter, encodeFrame am P cap = .ok w ∧
      ((FrameReader.new rcap).consume w.out).2 = w.out.length ∧
      ((FrameReader.new rcap).consume w.out).1.state = .complete ∧
      (((FrameReader.new rcap).consume w.out).1.receive).1 = some P := by
  have hc0 : crc16 0xFFFF ([0xFF, 0x03] ++ P) < 65536 :=
    crc16_lt ([0xFF, 0x03] ++ P) 0xFFFF (by omega)
  refine ⟨_, encodeFrame_ok am P cap hcap, ?_⟩
  set c0 := crc16 0xFFFF ([0xFF, 0x03] ++ P) with hc0def
  set lo := (c0 ^^^ 0xFFFF) % 256 with hlodef
  set hi := ((c0 ^^^ 0xFFFF) / 256) % 256 with hhidef
  set X := (0x03 :: (P ++ [lo, hi]) : List Nat) with hXdef
  -- step A: the two raw header bytes take the fresh reader to `Data`
  have hA : (FrameReader.new rcap).consume [0x7e, 0xff] =
      (⟨.data, false, [], rcap⟩, 2) := by
    simp [FrameReader.new, FrameReader.consume, FrameReader.consumeByte]
  -- step B: the escaped block appends the unescaped bytes
  have hXbytes : ∀ b ∈ X, b < 256 := by
    intro b hbX
    rw [hXdef] at hbX
    rcases List.mem_cons.mp hbX with h3 | hrest
    · omega
    · rcases List.mem_append.mp hrest with hP | hfcs
      · exact hb b hP
      · rcases List.mem_cons.mp hfcs with h | h
        · rw [h, hlodef]; omega
        · have : b ∈ [hi] := h
          simp at this
          rw [this, hhidef]; omega
  have hB : (⟨.data, false, [], rcap⟩ : FrameReader).consume (escCat am X) =
      (⟨.data, false, X, rcap⟩, (escCat am X).length) := by
    have := consume_escCat am X ⟨.data, false, [], rcap⟩ rfl rfl hXbytes
      (by simp [hXdef]; omega)
    simpa using this
  -- step C: the closing flag completes the frame (CRC residue)
  have hcrc : crc16 0x00FF X = 0xf0b8 := by
    rw [hXdef]
    show crc16 0x00FF ([0x03] ++ (P ++ [lo, hi])) = 0xf0b8
    rw [← List.append_assoc, crc16_append]
    have h255 : crc16 0x00FF ([0x03] ++ P) = c0 := by
      rw [hc0def, crc16_append, crc16_append]
      rw [show crc16 0x00FF [0x03] = crc16 0xFFFF [0xFF, 0x03] from by decide]
    rw [h255, hlodef, hhidef]
    exact crc_residue c0 hc0
  have hok : 3 ≤ X.length ∧ X.headD 0 = 0x03 ∧ crc16 0x00FF X = 0xf0b8 := by
    refine ⟨by rw [hXdef]; simp, by rw [hXdef]; rfl, hcrc⟩
  have hstep : (⟨.data, false, X, rcap⟩ : FrameReader).consumeByte 0x7e =
      ⟨.complete, false, X, rcap⟩ := by
    unfold FrameReader.consumeByte
    simp only [if_pos rfl]
    rw [if_pos hok]
    simp
  have hC : (⟨.data, false, X, rcap⟩ : FrameReader).consume [0x7e] =
      ((⟨.complete, false, X, rcap⟩ : FrameReader), 1) := by
    rw [consume_cons _ (by simp), hstep]
    simp [consume_nil]
  have h2 : (⟨.data, false, [], rcap⟩ : FrameReader).consume (escCat am X ++ [0x7e]) =
      ((⟨.complete, false, X, rcap⟩ : FrameReader), (escCat am X).length + 1) := by
    rw [consume_append_all (escCat am X) _ _ [0x7e] hB, hC]
  have h3 : (FrameReader.new rcap).consume ([0x7e, 0xff] ++ (escCat am X ++ [0x7e])) =
      ((⟨.complete, false, X, rcap⟩ : FrameReader), 2 + ((escCat am X).length + 1)) := by
    rw [consume_append_all [0x7e, 0xff] _ _ _ hA, h2]
    rfl
  have hout : ({ out := [0x7e, 0xff] ++ escCat am X ++ [0x7e], bufCap := cap, crc := c0, asyncmap := am } : FrameWriter).out = [0x7e, 0xff] ++ (escCat am X ++ [0x7e]) := rfl
  refine ⟨?_, ?_, ?_⟩
  · rw [hout, h3]
    simp
    omega
  · rw [hout, h3]
  · rw [hout, h3]
    simp only [FrameReader.receive]
    rw [hXdef]
    simp [List.take_left']

/-- Witness for C1: round trip of the payload `[0x00, 0x7e, 0x45]` (one
asyncmap-escaped byte, one always-escaped byte, one literal byte) with
asyncmap `0x0F`, writer capacity 20 and reader capacity 10. -/
theorem c1_witness :
    (∀ b ∈ [0x00, 0x7e, 0x45], b < 256) ∧ 2 * 3 + 9 ≤ 20 ∧ 3 + 3 ≤ 10 ∧
    (∃ w : FrameWriter, encodeFrame 0x0F [0x00, 0x7e, 0x45] 20 = .ok w ∧
      ((FrameReader.new 10).consume w.out).2 = w.out.length ∧
      ((FrameReader.new 10).consume w.out).1.state = .complete ∧
      (((FrameReader.new 10).consume w.out).1.receive).1 =
        some [0x00, 0x7e, 0x45]) :=
  ⟨by decide, by decide, by decide,
   c1_frame_roundtrip 0x0F [0x00, 0x7e, 0x45] 20 10 (by decide) (by decide) (by decide)⟩

/-! ## Configure-Req verdict collection -/

theorem code_toU8_inj : ∀ a b : Code, a.toU8 = b.toU8 → a = b := by
  intro a b h
  cases a <;> cases b <;> first
    | rfl
    | simp [Code.toU8] at h

theorem worstFrom_ge (vs : List Verdict) : ∀ c : Code,
    c.toU8 ≤ (worstFrom c vs).toU8 := by
  induction vs with
  | nil => intro c; exact Nat.le_refl _
  | cons v rest ih =>
    intro c
    show c.toU8 ≤ (worstFrom (codeMax c (verdictCode v)) rest).toU8
    refine Nat.le_trans ?_ (ih (codeMax c (verdictCode v)))
    unfold codeMax
    by_cases h : c.toU8 < (verdictCode v).toU8
    · rw [if_pos h]; omega
    · rw [if_neg h]

theorem worstFrom_cons (c : Code) (v : Verdict) (rest : List Verdict) :
    worstFrom c (v :: rest) = worstFrom (codeMax c (verdictCode v)) rest := rfl

theorem verdictsFrom_cons {S : Type} (P : Protocol S) (s : S) (oc : Nat)
    (od : List Nat) (rest : List (Nat × List Nat)) :
    verdictsFrom P s ((oc, od) :: rest) =
      ((oc, od), (P.peer_option_received s oc od).2) ::
        verdictsFrom P (P.peer_option_received s oc od).1 rest := rfl

theorem stateAfter_cons {S : Type} (P : Protocol S) (s : S) (oc : Nat)
    (od : List Nat) (rest : List (Nat × List Nat)) :
    stateAfter P s ((oc, od) :: rest) =
      stateAfter P (P.peer_option_received s oc od).1 rest := rfl

theorem winningOpts_cons (win : Code) (o : (Nat × List Nat) × Verdict)
    (rest : List ((Nat × List Nat) × Verdict)) :
    winningOpts win (o :: rest) =
      (if verdictCode o.2 = win
       then [{ code := o.1.1, data := storedData o.1.2 o.2 }] else []) ++
      winningOpts win rest := by
  unfold winningOpts
  by_cases h : verdictCode o.2 = win
  · rw [List.filter_cons_of_pos (by simp [h]), if_pos h]
    simp
  · rw [List.filter_cons_of_neg (by simp [h]), if_neg h]
    simp


theorem except_bind_ok {ε α β : Type} (x : α) (f : α → Except ε β) :
    ((Except.ok x : Except ε α) >>= f) = f x := rfl

theorem cfgStep_eq {S : Type} (P : Protocol S) (c : Code) (os : List OptionVal)
    (s : S) (oc : Nat) (od : List Nat) (s' : S) (v : Verdict)
    (hpr : P.peer_option_received s oc od = (s', v))
    (hd4 : (storedData od v).length ≤ 4) (hos : os.length ≤ 5) :
    cfgStep P ⟨c, os, s⟩ oc od =
      if c.toU8 < (verdictCode v).toU8 then
        .ok ⟨verdictCode v, [⟨oc, storedData od v⟩], s'⟩
      else if c = verdictCode v then
        .ok ⟨c, os ++ [⟨oc, storedData od v⟩], s'⟩
      else .ok ⟨c, os, s'⟩ := by
  have hval : OptionVal.new oc (storedData od v) = .ok ⟨oc, storedData od v⟩ := by
    unfold OptionVal.new
    rw [if_neg (by omega)]
  have hcap6 : ¬ (os.length ≥ 6) := by omega
  simp only [cfgStep, hpr]
  by_cases hup : c.toU8 < (verdictCode v).toU8
  · simp [hup, hval, except_bind_ok]
  · by_cases heq : c = verdictCode v
    · simp [hup, heq, hval, except_bind_ok, hcap6]
    · simp [hup, heq]

theorem runOpts_cfg {S : Type} (P : Protocol S) (opts : List (Nat × List Nat)) :
    ∀ (c : Code) (os : List OptionVal) (s : S),
    (∀ x ∈ verdictsFrom P s opts, (storedData x.1.2 x.2).length ≤ 4) →
    os.length + opts.length ≤ 6 →
    runOpts (cfgStep P) ⟨c, os, s⟩ opts =
      .ok ⟨worstFrom c ((verdictsFrom P s opts).map (fun x => x.2)),
           (if c = worstFrom c ((verdictsFrom P s opts).map (fun x => x.2))
            then os else []) ++
            winningOpts (worstFrom c ((verdictsFrom P s opts).map (fun x => x.2)))
              (verdictsFrom P s opts),
           stateAfter P s opts⟩ := by
  induction opts with
  | nil =>
    intro c os s _ _
    simp [runOpts, verdictsFrom, stateAfter, worstFrom, winningOpts]
  | cons hd rest ih =>
    obtain ⟨oc, od⟩ := hd
    intro c os s hdata hcap
    rcases hpr : P.peer_option_received s oc od with ⟨s', v⟩
    rw [verdictsFrom_cons, hpr] at hdata ⊢
    rw [stateAfter_cons, hpr]
    simp only [List.length_cons] at hcap
    have hd4 : (storedData od v).length ≤ 4 := by
      have := hdata _ (List.mem_cons_self _ _)
      simpa using this
    have hdrest : ∀ x ∈ verdictsFrom P s' rest, (storedData x.1.2 x.2).length ≤ 4 :=
      fun x hx => hdata x (List.mem_cons_of_mem _ hx)
    have hfx : ((((oc, od), v) :: verdictsFrom P s' rest).map (fun x => x.2)) =
        v :: (verdictsFrom P s' rest).map (fun x => x.2) := by
      simp
    rw [hfx, worstFrom_cons, winningOpts_cons]
    show (cfgStep P ⟨c, os, s⟩ oc od) >>= _ = _
    rw [cfgStep_eq P c os s oc od s' v hpr hd4 (by omega)]
    by_cases hup : c.toU8 < (verdictCode v).toU8
    · rw [if_pos hup, except_bind_ok]
      have ih2 := ih (verdictCode v) [{ code := oc, data := storedData od v }] s'
        hdrest (by simp; omega)
      rw [ih2]
      have hcM : codeMax c (verdictCode v) = verdictCode v := by
        unfold codeMax
        rw [if_pos hup]
      rw [hcM]
      have hge := worstFrom_ge ((verdictsFrom P s' rest).map (fun x => x.2)) (verdictCode v)
      have hcne : ¬ (c = worstFrom (verdictCode v)
          ((verdictsFrom P s' rest).map (fun x => x.2))) := by
        intro h
        rw [h] at hup
        omega
      rw [if_neg hcne]
      simp
    · rw [if_neg hup]
      have hcM : codeMax c (verdictCode v) = c := by
        unfold codeMax
        rw [if_neg hup]
      rw [hcM]
      rw [show verdictCode ((oc, od), (s', v).2).2 = verdictCode v from rfl]
      by_cases heq : c = verdictCode v
      · rw [if_pos heq, except_bind_ok]
        have ih2 := ih c (os ++ [{ code := oc, data := storedData od v }]) s'
          hdrest (by simp; omega)
        rw [ih2]
        rw [← heq]
        by_cases hcf : c = worstFrom c ((verdictsFrom P s' rest).map (fun x => x.2))
        · rw [if_pos hcf, if_pos hcf, if_pos hcf]
          simp
        · rw [if_neg hcf, if_neg hcf, if_neg hcf]
          simp
      · rw [if_neg heq, except_bind_ok]
        have ih2 := ih c os s' hdrest (by omega)
        rw [ih2]
        have hge := worstFrom_ge ((verdictsFrom P s' rest).map (fun x => x.2)) c
        have hvlt : (verdictCode v).toU8 < c.toU8 := by
          rcases Nat.lt_or_ge (verdictCode v).toU8 c.toU8 with h | h
          · exact h
          · have hgeq : c.toU8 = (verdictCode v).toU8 := by omega
            exact absurd (code_toU8_inj _ _ hgeq) heq
        have hvne : ¬ (verdictCode v = worstFrom c
            ((verdictsFrom P s' rest).map (fun x => x.2))) := by
          intro h
          have := congrArg Code.toU8 h
          omega
        rw [if_neg hvne]
        simp

theorem serializeOpts_cons (c : Nat) (d : List Nat) (rest : List (Nat × List Nat)) :
    serializeOpts ((c, d) :: rest) =
      c :: (d.length + 2) :: (d ++ serializeOpts rest) := by
  simp [serializeOpts]

theorem parse_options_go_serialized {σ : Type}
    (f : σ → Nat → List Nat → Except String σ)
    (opts : List (Nat × List Nat)) : ∀ (fuel : Nat) (s : σ),
    (serializeOpts opts).length ≤ fuel →
    parse_options_go f fuel s (serializeOpts opts) =
      match runOpts f s opts with
      | .ok s' => .ok (.ok s')
      | .error e => .error e := by
  induction opts with
  | nil =>
    intro fuel s _
    cases fuel <;> simp [serializeOpts, parse_options_go, runOpts]
  | cons hd rest ih =>
    obtain ⟨c, d⟩ := hd
    intro fuel s hfuel
    rw [serializeOpts_cons] at hfuel ⊢
    cases fuel with
    | zero => simp at hfuel
    | succ n =>
      simp only [List.length_cons, List.length_append] at hfuel
      rw [parse_options_go]
      rw [if_neg (by simp; omega), if_neg (by omega)]
      rw [show d.length + 2 - 2 = d.length from by omega]
      rw [List.take_left' rfl, List.drop_left' rfl]
      show (f s c d >>= _) = _
      cases hf : f s c d with
      | error e =>
        show Except.error e = _
        show _ = (match (f s c d >>= fun s' => runOpts f s' rest : Except String σ) with
          | .ok s' => (.ok (.ok s') : Except String (ParseOutcome σ))
          | .error e => .error e)
        rw [hf]
        rfl
      | ok s' =>
        show parse_options_go f n s' (serializeOpts rest) = _
        rw [ih n s' (by omega)]
        show _ = (match (f s c d >>= fun s' => runOpts f s' rest : Except String σ) with
          | .ok s' => (.ok (.ok s') : Except String (ParseOutcome σ))
          | .error e => .error e)
        rw [hf]
        rfl

/-- What `received_configure_req` produces on a well-formed serialized
option stream: the worst-verdict response code, the winning options, the
request's id, and the threaded capability state. -/
theorem received_configure_req_serialized {S : Type} (P : Protocol S)
    (fsm : OptionFsm S)
    (opts : List (Nat × List Nat)) (p0 p1 codeB idB lenHi lenLo : Nat)
    (hcount : opts.length ≤ 6)
    (_hwf : ∀ cd ∈ opts, cd.2.length ≤ 253)
    (hd4 : ∀ x ∈ verdictsFrom P (P.peer_options_start fsm.proto) opts,
      (storedData x.1.2 x.2).length ≤ 4) :
    OptionFsm.received_configure_req P fsm
        (p0 :: p1 :: codeB :: idB :: lenHi :: lenLo :: serializeOpts opts) =
      .ok ({ fsm with proto := stateAfter P (P.peer_options_start fsm.proto) opts },
           { proto := P.protocol,
             payload := .ppp
               (worstCode ((verdictsFrom P (P.peer_options_start fsm.proto) opts).map
                 (fun x => x.2)))
               idB
               (.options (winningOpts
                 (worstCode ((verdictsFrom P (P.peer_options_start fsm.proto) opts).map
                   (fun x => x.2)))
                 (verdictsFrom P (P.peer_options_start fsm.proto) opts))) }) := by
  unfold OptionFsm.received_configure_req
  rw [if_neg (by simp)]
  unfold parse_options
  rw [show (p0 :: p1 :: codeB :: idB :: lenHi :: lenLo :: serializeOpts opts).drop 6 =
        serializeOpts opts from rfl]
  rw [show (p0 :: p1 :: codeB :: idB :: lenHi :: lenLo :: serializeOpts opts).getD 3 0 =
        idB from rfl]
  rw [parse_options_go_serialized (cfgStep P) opts _ _ (Nat.le_refl _)]
  rw [runOpts_cfg P opts .configureAck [] (P.peer_options_start fsm.proto) hd4
        (by simp; omega)]
  have hworst : worstCode ((verdictsFrom P (P.peer_options_start fsm.proto) opts).map
      (fun x => x.2)) =
      worstFrom .configureAck ((verdictsFrom P (P.peer_options_start fsm.proto) opts).map
        (fun x => x.2)) := rfl
  rw [hworst]
  by_cases hca : (Code.configureAck : Code) =
      worstFrom .configureAck ((verdictsFrom P (P.peer_options_start fsm.proto) opts).map
        (fun x => x.2))
  · rw [if_pos hca]
    rfl
  · rw [if_neg hca]
    rfl

/-- C2 (amended): for a received Configure-Req whose option stream is a
well-formed TLV encoding of at most 6 options, each of whose stored
response data (received data for Ack/Rej, suggested data for Nack) fits
the 4-byte `OptionVal` bound, the response's code is the worst verdict
over its options under Ack < Nack < Rej, the response carries exactly the
options whose verdict equals the winning one (Nack options with the
suggested data, Ack/Rej options with the data as received), in order, and
the response reuses the request's id. -/
theorem c2_verdict_precedence {S : Type} (P : Protocol S) (fsm : OptionFsm S)
    (opts : List (Nat × List Nat)) (p0 p1 codeB idB lenHi lenLo : Nat)
    (hcount : opts.length ≤ 6)
    (hwf : ∀ cd ∈ opts, cd.2.length ≤ 253)
    (hd4 : ∀ x ∈ verdictsFrom P (P.peer_options_start fsm.proto) opts,
      (storedData x.1.2 x.2).length ≤ 4) :
    OptionFsm.received_configure_req P fsm
        (p0 :: p1 :: codeB :: idB :: lenHi :: lenLo :: serializeOpts opts) =
      .ok ({ fsm with proto := stateAfter P (P.peer_options_start fsm.proto) opts },
           { proto := P.protocol,
             payload := .ppp
               (worstCode ((verdictsFrom P (P.peer_options_start fsm.proto) opts).map
                 (fun x => x.2)))
               idB
               (.options (winningOpts
                 (worstCode ((verdictsFrom P (P.peer_options_start fsm.proto) opts).map
                   (fun x => x.2)))
                 (verdictsFrom P (P.peer_options_start fsm.proto) opts))) }) :=
  received_configure_req_serialized P fsm opts p0 p1 codeB idB lenHi lenLo
    hcount hwf hd4

/-- Counterexample for C2 as frozen: a well-formed Configure-Req carrying
a single well-formed option (code 0x55, 5 data bytes, rejected by LCP)
panics in `OptionVal::new` instead of producing the Reject response the
claim requires. -/
theorem c2_counterexample :
    OptionFsm.received_configure_req lcpProto ⟨1, .reqSent, LCP.new⟩
      [0xc0, 0x21, 0x01, 0x09, 0x00, 0x0d, 0x55, 0x07, 9, 8, 7, 6, 5] =
      .error "OptionVal::new: data too long for MaxOptionLen" := by
  rfl

/-- Witness for C2 (amended): the LCP Configure-Req options
`[Asyncmap(4B), Auth(bad), unknown]` produce verdicts `[Ack, Nack, Rej]`
and the response is a Configure-Rej carrying exactly the unknown option,
with the request's id. -/
theorem c2_witness :
    ([((2 : Nat), [1, 2, 3, 4]), (3, [0]), (9, [])] :
      List (Nat × List Nat)).length ≤ 6 ∧
    OptionFsm.received_configure_req lcpProto ⟨1, .reqSent, LCP.new⟩
        (0xc0 :: 0x21 :: 1 :: 9 :: 0 :: 0 ::
          serializeOpts [(2, [1, 2, 3, 4]), (3, [0]), (9, [])]) =
      .ok ({ id := 1, state := .reqSent,
             proto := stateAfter lcpProto
               (lcpProto.peer_options_start LCP.new)
               [(2, [1, 2, 3, 4]), (3, [0]), (9, [])] },
           { proto := .lcp,
             payload := .ppp
               (worstCode ((verdictsFrom lcpProto
                 (lcpProto.peer_options_start LCP.new)
                 [(2, [1, 2, 3, 4]), (3, [0]), (9, [])]).map (fun x => x.2)))
               9
               (.options (winningOpts
                 (worstCode ((verdictsFrom lcpProto
                   (lcpProto.peer_options_start LCP.new)
                   [(2, [1, 2, 3, 4]), (3, [0]), (9, [])]).map (fun x => x.2)))
                 (verdictsFrom lcpProto (lcpProto.peer_options_start LCP.new)
                   [(2, [1, 2, 3, 4]), (3, [0]), (9, [])]))) }) :=
  ⟨by decide,
   c2_verdict_precedence lcpProto ⟨1, .reqSent, LCP.new⟩
     [(2, [1, 2, 3, 4]), (3, [0]), (9, [])] 0xc0 0x21 1 9 0 0
     (by decide) (by decide) (by decide)⟩

/-! ## Option FSM monotonicity (open, Configure-Req, Configure-Ack) -/

theorem pushOwnOptions_ok (own : List (Nat × List Nat)) : ∀ acc : List OptionVal,
    (∀ cd ∈ own, cd.2.length ≤ 4) → acc.length + own.length ≤ 6 →
    pushOwnOptions acc own =
      .ok (acc ++ own.map fun cd => { code := cd.1, data := cd.2 }) := by
  induction own with
  | nil =>
    intro acc _ _
    simp [pushOwnOptions]
  | cons hd rest ih =>
    obtain ⟨c, d⟩ := hd
    intro acc hall hcap
    have hd4 : d.length ≤ 4 := hall (c, d) (List.mem_cons_self _ _)
    rw [pushOwnOptions]
    rw [show OptionVal.new c d = .ok { code := c, data := d } from by
      unfold OptionVal.new; rw [if_neg (by omega)]]
    rw [except_bind_ok]
    simp only [List.length_cons] at hcap
    rw [if_neg (by omega)]
    have ih2 := ih (acc ++ [{ code := c, data := d }])
      (fun cd hcd => hall cd (List.mem_cons_of_mem _ hcd)) (by simp; omega)
    rw [ih2]
    simp

theorem worstCode_all_ack (vs : List ((Nat × List Nat) × Verdict))
    (h : ∀ x ∈ vs, x.2 = Verdict.ack) :
    worstCode (vs.map fun x => x.2) = .configureAck := by
  show worstFrom .configureAck (vs.map fun x => x.2) = .configureAck
  induction vs with
  | nil => rfl
  | cons v rest ih =>
    rw [List.map_cons, worstFrom_cons, h v (List.mem_cons_self _ _)]
    exact ih fun x hx => h x (List.mem_cons_of_mem _ hx)

theorem verdictsFrom_mem_fst {S : Type} (P : Protocol S) :
    ∀ (opts : List (Nat × List Nat)) (s : S) x,
    x ∈ verdictsFrom P s opts → x.1 ∈ opts := by
  intro opts
  induction opts with
  | nil => intro s x hx; simp [verdictsFrom] at hx
  | cons hd rest ih =>
    obtain ⟨oc, od⟩ := hd
    intro s x hx
    rw [verdictsFrom_cons] at hx
    rcases List.mem_cons.mp hx with h | h
    · rw [h]
      exact List.mem_cons_self _ _
    · exact List.mem_cons_of_mem _ (ih _ x h)

/-- C7 (amended): from state `Closed`, calling `open()` (which sends the
initial Configure-Request and moves to `ReqSent`) and then handling a
Configure-Req whose options all get verdict Ack followed by a
Configure-Ack leaves the FSM in state `Opened`, regardless of the id
values carried by the two packets. -/
theorem c7_fsm_monotonicity {S : Type} (P : Protocol S) (fsm0 : OptionFsm S)
    (hclosed : fsm0.state = .closed)
    (hown4 : ∀ cd ∈ P.own_options fsm0.proto, cd.2.length ≤ 4)
    (hown6 : (P.own_options fsm0.proto).length ≤ 6)
    (opts : List (Nat × List Nat)) (p0 p1 id1 lenHi lenLo q0 q1 id2 : Nat)
    (hcount : opts.length ≤ 6)
    (hwf : ∀ cd ∈ opts, cd.2.length ≤ 253)
    (hd4 : ∀ cd ∈ opts, cd.2.length ≤ 4)
    (hack : ∀ x ∈ verdictsFrom P (P.peer_options_start fsm0.proto) opts,
      x.2 = Verdict.ack)
    (hlen : lenHi * 256 + lenLo = 4 + (serializeOpts opts).length) :
    ∃ (r1 : OptionFsm S × Packet) (r2 r3 : OptionFsm S × List Packet),
      OptionFsm.open' P fsm0 = .ok r1 ∧
      OptionFsm.handle P r1.1
        (p0 :: p1 :: 1 :: id1 :: lenHi :: lenLo :: serializeOpts opts) = .ok r2 ∧
      OptionFsm.handle P r2.1 [q0, q1, 2, id2, 0, 4] = .ok r3 ∧
      r3.1.state = .opened := by
  have hd4' : ∀ x ∈ verdictsFrom P (P.peer_options_start fsm0.proto) opts,
      (storedData x.1.2 x.2).length ≤ 4 := by
    intro x hx
    rw [hack x hx]
    exact hd4 x.1 (verdictsFrom_mem_fst P opts _ x hx)
  -- step 1: open()
  have h1 : OptionFsm.open' P fsm0 =
      .ok (⟨(fsm0.id + 1) % 256, .reqSent, fsm0.proto⟩,
           { proto := P.protocol,
             payload := .ppp .configureReq ((fsm0.id + 1) % 256)
               (.options ((P.own_options fsm0.proto).map
                 fun cd => { code := cd.1, data := cd.2 })) }) := by
    unfold OptionFsm.open'
    rw [if_pos hclosed]
    unfold OptionFsm.send_configure_request
    rw [show ({ fsm0 with state := FsmState.reqSent } : OptionFsm S).proto =
          fsm0.proto from rfl]
    rw [pushOwnOptions_ok (P.own_options fsm0.proto) [] hown4 (by simp; omega)]
    rfl
  -- step 2: the all-Ack Configure-Req moves ReqSent → AckSent
  have hrcr : OptionFsm.received_configure_req P
      ⟨(fsm0.id + 1) % 256, .reqSent, fsm0.proto⟩
      (p0 :: p1 :: 1 :: id1 :: lenHi :: lenLo :: serializeOpts opts) =
      .ok (⟨(fsm0.id + 1) % 256, .reqSent,
             stateAfter P (P.peer_options_start fsm0.proto) opts⟩,
           { proto := P.protocol,
             payload := .ppp
               (worstCode ((verdictsFrom P (P.peer_options_start fsm0.proto) opts).map
                 (fun x => x.2)))
               id1
               (.options (winningOpts
                 (worstCode ((verdictsFrom P (P.peer_options_start fsm0.proto) opts).map
                   (fun x => x.2)))
                 (verdictsFrom P (P.peer_options_start fsm0.proto) opts))) }) :=
    received_configure_req_serialized P ⟨(fsm0.id + 1) % 256, .reqSent, fsm0.proto⟩
      opts p0 p1 1 id1 lenHi lenLo hcount hwf hd4'
  rw [worstCode_all_ack (verdictsFrom P (P.peer_options_start fsm0.proto) opts) hack]
    at hrcr
  have htake : (p0 :: p1 :: 1 :: id1 :: lenHi :: lenLo :: serializeOpts opts).take
      ((p0 :: p1 :: 1 :: id1 :: lenHi :: lenLo :: serializeOpts opts).getD 4 0 * 256 +
        (p0 :: p1 :: 1 :: id1 :: lenHi :: lenLo :: serializeOpts opts).getD 5 0 + 2) =
      p0 :: p1 :: 1 :: id1 :: lenHi :: lenLo :: serializeOpts opts := by
    rw [show (p0 :: p1 :: 1 :: id1 :: lenHi :: lenLo :: serializeOpts opts).getD 4 0 =
          lenHi from rfl,
        show (p0 :: p1 :: 1 :: id1 :: lenHi :: lenLo :: serializeOpts opts).getD 5 0 =
          lenLo from rfl]
    exact List.take_of_length_le (by simp; omega)
  have h2 : OptionFsm.handle P ⟨(fsm0.id + 1) % 256, .reqSent, fsm0.proto⟩
      (p0 :: p1 :: 1 :: id1 :: lenHi :: lenLo :: serializeOpts opts) =
      .ok (⟨(fsm0.id + 1) % 256, .ackSent,
             stateAfter P (P.peer_options_start fsm0.proto) opts⟩,
           [{ proto := P.protocol,
              payload := .ppp Code.configureAck id1
                (.options (winningOpts Code.configureAck
                  (verdictsFrom P (P.peer_options_start fsm0.proto) opts))) }]) := by
    simp only [OptionFsm.handle]
    rw [if_neg (by simp)]
    rw [if_neg (by simp; omega)]
    change (OptionFsm.received_configure_req P _ _) >>= _ = _
    rw [htake, hrcr, except_bind_ok]
  -- step 3: the Configure-Ack moves AckSent → Opened
  have h3 : OptionFsm.handle P
      ⟨(fsm0.id + 1) % 256, .ackSent,
        stateAfter P (P.peer_options_start fsm0.proto) opts⟩
      [q0, q1, 2, id2, 0, 4] =
      .ok (⟨(fsm0.id + 1) % 256, .opened,
             stateAfter P (P.peer_options_start fsm0.proto) opts⟩, []) := by
    set_option maxRecDepth 8192 in rfl
  exact ⟨_, _, _, h1, h2, h3, rfl⟩

/-- Counterexample for C7 as frozen: starting in state `Closed` (without
`open()`), a Configure-Req — here with an empty, hence all-acceptable,
option list — is answered with a Terminate-Ack and the state stays
`Closed`; the following Configure-Ack is again answered with a
Terminate-Ack, so the sequence ends in `Closed`, not `Opened`. -/
theorem c7_counterexample :
    OptionFsm.handle lcpProto (OptionFsm.new LCP.new) [0xc0, 0x21, 1, 5, 0, 4] =
      .ok (OptionFsm.new LCP.new, [OptionFsm.send_terminate_ack lcpProto 5]) ∧
    OptionFsm.handle lcpProto (OptionFsm.new LCP.new) [0xc0, 0x21, 2, 9, 0, 4] =
      .ok (OptionFsm.new LCP.new, [OptionFsm.send_terminate_ack lcpProto 9]) ∧
    (OptionFsm.new LCP.new).state = .closed ∧
    FsmState.closed ≠ FsmState.opened :=
  ⟨rfl, rfl, rfl, by decide⟩

/-- Witness for C7 (amended): the LCP FSM from `Closed`, after `open()`,
an all-Ack Configure-Req carrying `Asyncmap(01 02 03 04)` with id 7, and
a Configure-Ack with id 99, ends in `Opened`. -/
theorem c7_witness :
    (OptionFsm.new LCP.new).state = .closed ∧
    (∀ x ∈ verdictsFrom lcpProto
        (lcpProto.peer_options_start (OptionFsm.new LCP.new).proto)
        [((2 : Nat), [1, 2, 3, 4])], x.2 = Verdict.ack) ∧
    (∃ (r1 : OptionFsm LCP × Packet) (r2 r3 : OptionFsm LCP × List Packet),
      OptionFsm.open' lcpProto (OptionFsm.new LCP.new) = .ok r1 ∧
      OptionFsm.handle lcpProto r1.1
        (0xc0 :: 0x21 :: 1 :: 7 :: 0 :: 10 :: serializeOpts [(2, [1, 2, 3, 4])]) =
          .ok r2 ∧
      OptionFsm.handle lcpProto r2.1 [0xc0, 0x21, 2, 99, 0, 4] = .ok r3 ∧
      r3.1.state = .opened) :=
  ⟨rfl, by decide,
   c7_fsm_monotonicity lcpProto (OptionFsm.new LCP.new) rfl
     (by decide) (by decide) [(2, [1, 2, 3, 4])] 0xc0 0x21 7 0 10 0xc0 0x21 99
     (by decide) (by decide) (by decide) (by decide) (by decide)⟩

/-! ## Asyncmap application -/

theorem send_ok (lcp : LCP) (pkt : List Nat) (cap : Nat)
    (h : 2 * pkt.length + 13 ≤ cap) :
    PPPoS.send lcp pkt cap =
      .ok ([0x7e, 0xff] ++ escCat lcp.asyncmap_remote ((0x03 : Nat) ::
            ([0x00, 0x21] ++ (pkt ++
              [(crc16 0xFFFF ([0xFF, 0x03] ++ ([0x00, 0x21] ++ pkt)) ^^^ 0xFFFF) % 256,
               ((crc16 0xFFFF ([0xFF, 0x03] ++ ([0x00, 0x21] ++ pkt)) ^^^ 0xFFFF) / 256) % 256]))) ++
            [0x7e],
           ([0x7e, 0xff] ++ escCat lcp.asyncmap_remote ((0x03 : Nat) ::
            ([0x00, 0x21] ++ (pkt ++
              [(crc16 0xFFFF ([0xFF, 0x03] ++ ([0x00, 0x21] ++ pkt)) ^^^ 0xFFFF) % 256,
               ((crc16 0xFFFF ([0xFF, 0x03] ++ ([0x00, 0x21] ++ pkt)) ^^^ 0xFFFF) / 256) % 256]))) ++
            [0x7e]).length) := by
  have hesc3 := escCat_length_le lcp.asyncmap_remote [0x03]
  have hescp := escCat_length_le lcp.asyncmap_remote
    [ProtocolType.ipv4.toU16 / 256 % 256, ProtocolType.ipv4.toU16 % 256]
  have hescP := escCat_length_le lcp.asyncmap_remote pkt
  unfold PPPoS.send
  rw [start_ok (FrameWriter.new_with_asyncmap cap lcp.asyncmap_remote)
        (by simp [FrameWriter.new_with_asyncmap]; omega)]
  show FrameWriter.append _ _ >>= _ = _
  rw [append_ok _ _ (by simp [FrameWriter.new_with_asyncmap]; simp at hesc3; omega)]
  show FrameWriter.append _ pkt >>= _ = _
  rw [append_ok _ pkt
        (by simp [FrameWriter.new_with_asyncmap]; simp at hesc3 hescp; omega)]
  show FrameWriter.finish _ >>= _ = _
  rw [finish_ok _
        (by simp [FrameWriter.new_with_asyncmap]; simp at hesc3 hescp hescP; omega)]
  show Except.ok _ = _
  rw [show [ProtocolType.ipv4.toU16 / 256 % 256, ProtocolType.ipv4.toU16 % 256] =
        [(0x00 : Nat), 0x21] from rfl]
  simp [FrameWriter.new_with_asyncmap, escCat, crc16_append, List.append_assoc]
  constructor
  · rfl
  · rfl

/-- C6: a byte is escaped iff it is `0x7D`, `0x7E`, or a control byte
whose asyncmap bit is set; with asyncmap 0 control bytes are literal, with
`0xFFFFFFFF` they are all escaped; `poll`'s writer (`FrameWriter::new`)
uses asyncmap `0xFFFFFFFF`, and `send` frames with the negotiated
`asyncmap_remote`, every payload byte going through `escCat` of that
asyncmap. -/
theorem c6_asyncmap_application (am b cap : Nat) (lcp : LCP) (pkt : List Nat)
    (hcap : 2 * pkt.length + 13 ≤ cap) :
    (escByte am b = true ↔
      (b = 0x7d ∨ b = 0x7e ∨ (b ≤ 0x1f ∧ am &&& (1 <<< b) ≠ 0)))
    ∧ (escCat am [b] = if escByte am b then [0x7d, b ^^^ 0x20] else [b])
    ∧ (b ≤ 0x1f → escByte 0 b = false)
    ∧ (b ≤ 0x1f → escByte 0xFFFFFFFF b = true)
    ∧ (FrameWriter.new cap).asyncmap = 0xFFFFFFFF
    ∧ pollInitWriter cap = FrameWriter.new cap
    ∧ (FrameWriter.new_with_asyncmap cap lcp.asyncmap_remote).asyncmap =
        lcp.asyncmap_remote
    ∧ PPPoS.send lcp pkt cap =
        .ok ([0x7e, 0xff] ++ escCat lcp.asyncmap_remote ((0x03 : Nat) ::
              ([0x00, 0x21] ++ (pkt ++
                [(crc16 0xFFFF ([0xFF, 0x03] ++ ([0x00, 0x21] ++ pkt)) ^^^ 0xFFFF) % 256,
                 ((crc16 0xFFFF ([0xFF, 0x03] ++ ([0x00, 0x21] ++ pkt)) ^^^ 0xFFFF) / 256) % 256]))) ++
              [0x7e],
             ([0x7e, 0xff] ++ escCat lcp.asyncmap_remote ((0x03 : Nat) ::
              ([0x00, 0x21] ++ (pkt ++
                [(crc16 0xFFFF ([0xFF, 0x03] ++ ([0x00, 0x21] ++ pkt)) ^^^ 0xFFFF) % 256,
                 ((crc16 0xFFFF ([0xFF, 0x03] ++ ([0x00, 0x21] ++ pkt)) ^^^ 0xFFFF) / 256) % 256]))) ++
              [0x7e]).length) := by
  refine ⟨?_, by simp [escCat], ?_, ?_, rfl, rfl, rfl, send_ok lcp pkt cap hcap⟩
  · unfold escByte
    by_cases h31 : b ≤ 0x1f
    · rw [if_pos h31]
      constructor
      · intro hx
        exact Or.inr (Or.inr ⟨h31, by simpa using hx⟩)
      · rintro (h | h | ⟨_, hbit⟩)
        · omega
        · omega
        · simpa using hbit
    · rw [if_neg h31]
      by_cases h125 : b = 0x7d
      · rw [if_pos h125]
        simp [h125]
      · rw [if_neg h125]
        by_cases h126 : b = 0x7e
        · rw [if_pos h126]
          simp [h126]
        · rw [if_neg h126]
          simp [h125, h126]
          omega
  · intro h31
    unfold escByte
    rw [if_pos h31]
    simp
  · intro h31
    unfold escByte
    rw [if_pos h31]
    have ht : ((0xFFFFFFFF : Nat) &&& (1 <<< b)).testBit b = true := by
      rw [Nat.testBit_and]
      rw [show (0xFFFFFFFF : Nat) = 2 ^ 32 - 1 from by norm_num]
      rw [Nat.testBit_two_pow_sub_one]
      simp [Nat.testBit_shiftLeft]
      omega
    simp only [bne_iff_ne, ne_eq]
    intro h0
    rw [h0] at ht
    simp at ht

/-! ## PAP Authenticate-Request emission -/

/-- C8 (amended): for credentials of at most 255 bytes each whose
Authenticate-Request additionally fits the 128-byte stack buffer of the
`poll` tx closure (`8 + |user| + |pass| ≤ 128`), opening PAP emits a
Configure-Req (Authenticate-Request) whose body is
`[len(user), user, len(pass), pass]`, and framing it through the tx
closure fires no assertion (given a tx buffer of capacity
`2·(8 + |user| + |pass|) + 9`). -/
theorem c8_pap_request (user pass : List Nat) (cap : Nat)
    (hu : user.length ≤ 255) (hp : pass.length ≤ 255)
    (hsz : 8 + user.length + pass.length ≤ 128)
    (hcap : 2 * (8 + user.length + pass.length) + 9 ≤ cap) :
    PAP.new user pass = .ok ⟨.closed, 1, user, pass⟩ ∧
    PAP.open' ⟨.closed, 1, user, pass⟩ =
      .ok (⟨.reqSent, 2, user, pass⟩,
           { proto := .pap, payload := .ppp .configureReq 2 (.pap user pass) }) ∧
    PPPPayload.emit (.pap user pass) =
      (user.length :: user) ++ (pass.length :: pass) ∧
    ∃ w : FrameWriter, pollTx (FrameWriter.new cap)
      { proto := .pap, payload := .ppp .configureReq 2 (.pap user pass) } =
        .ok w := by
  have hblen : (Packet.emit
      { proto := .pap, payload := .ppp .configureReq 2 (.pap user pass) }).length =
      8 + user.length + pass.length := by
    simp [Packet.emit, Payload.emit, PPPPayload.emit]
    omega
  refine ⟨?_, ?_, ?_, ?_⟩
  · unfold PAP.new
    rw [if_neg (by omega), if_neg (by omega)]
  · rfl
  · show (user.length % 256) :: (user ++ (pass.length % 256) :: pass) = _
    rw [Nat.mod_eq_of_lt (by omega), Nat.mod_eq_of_lt (by omega)]
    simp
  · unfold pollTx
    rw [if_neg (by simp [Packet.buffer_len, Payload.buffer_len, PPPPayload.buffer_len]; omega)]
    rw [show unwrapWriter ((FrameWriter.new cap).start) =
          .ok ⟨[0x7e, 0xff, 0x7d, 0x23], cap, crc16 0xFFFF [0xFF, 0x03], 0xFFFFFFFF⟩ from by
        rw [start_ok (FrameWriter.new cap) (by simp [FrameWriter.new]; omega)]
        show Except.ok _ = _
        simp [FrameWriter.new]
        rfl]
    rw [except_bind_ok]
    rw [show unwrapWriter ((⟨[0x7e, 0xff, 0x7d, 0x23], cap, crc16 0xFFFF [0xFF, 0x03], 0xFFFFFFFF⟩ : FrameWriter).append
          (Packet.emit { proto := .pap, payload := .ppp .configureReq 2 (.pap user pass) })) =
          .ok ⟨[0x7e, 0xff, 0x7d, 0x23] ++ escCat 0xFFFFFFFF
                (Packet.emit { proto := .pap, payload := .ppp .configureReq 2 (.pap user pass) }),
               cap,
               crc16 (crc16 0xFFFF [0xFF, 0x03])
                 (Packet.emit { proto := .pap, payload := .ppp .configureReq 2 (.pap user pass) }),
               0xFFFFFFFF⟩ from by
        rw [append_ok _ _ (by simp [hblen]; omega)]
        rfl]
    rw [except_bind_ok]
    have hfin := finish_ok
      (⟨[0x7e, 0xff, 0x7d, 0x23] ++ escCat 0xFFFFFFFF
          (Packet.emit { proto := .pap, payload := .ppp .configureReq 2 (.pap user pass) }),
        cap,
        crc16 (crc16 0xFFFF [0xFF, 0x03])
          (Packet.emit { proto := .pap, payload := .ppp .configureReq 2 (.pap user pass) }),
        0xFFFFFFFF⟩ : FrameWriter)
      (by
        show ([0x7e, 0xff, 0x7d, 0x23] ++ escCat 0xFFFFFFFF
          (Packet.emit { proto := .pap, payload := .ppp .configureReq 2 (.pap user pass) })).length + 5 ≤ cap
        rw [List.length_append]
        have := escCat_length_le 0xFFFFFFFF
          (Packet.emit { proto := .pap, payload := .ppp .configureReq 2 (.pap user pass) })
        rw [hblen] at this
        simp only [List.length_cons, List.length_nil]
        omega)
    exact ⟨_, by rw [hfin]; rfl⟩

set_option maxRecDepth 40000 in
/-- Counterexample for C8 as frozen: 255-byte username and password
satisfy the only stated precondition (each ≤ 255 bytes) and `PAP::new` and
`PAP::open` accept them, but the emitted Authenticate-Request has
`buffer_len` 518 > 128 and the `assert!(len <= buf.len())` in the `poll`
tx closure fires, so no request is emitted. -/
theorem c8_counterexample :
    PAP.new (List.replicate 255 0x61) (List.replicate 255 0x62) =
      .ok ⟨.closed, 1, List.replicate 255 0x61, List.replicate 255 0x62⟩ ∧
    PAP.open' ⟨.closed, 1, List.replicate 255 0x61, List.replicate 255 0x62⟩ =
      .ok (⟨.reqSent, 2, List.replicate 255 0x61, List.replicate 255 0x62⟩,
           { proto := .pap, payload := .ppp .configureReq 2
               (.pap (List.replicate 255 0x61) (List.replicate 255 0x62)) }) ∧
    pollTx (FrameWriter.new 1024)
      { proto := .pap, payload := .ppp .configureReq 2
          (.pap (List.replicate 255 0x61) (List.replicate 255 0x62)) } =
      .error "assertion failed: len <= buf.len()" :=
  ⟨rfl, rfl, rfl⟩

/-- Witness for C8 (amended): the one-byte credentials `u`/`p` produce an
Authenticate-Request with body `[1, u, 1, p]` framed without any
assertion firing. -/
theorem c8_witness :
    ([0x75] : List Nat).length ≤ 255 ∧
    8 + ([0x75] : List Nat).length + ([0x70] : List Nat).length ≤ 128 ∧
    (PAP.new [0x75] [0x70] = .ok ⟨.closed, 1, [0x75], [0x70]⟩ ∧
     PAP.open' ⟨.closed, 1, [0x75], [0x70]⟩ =
       .ok (⟨.reqSent, 2, [0x75], [0x70]⟩,
            { proto := .pap, payload := .ppp .configureReq 2 (.pap [0x75] [0x70]) }) ∧
     PPPPayload.emit (.pap [0x75] [0x70]) =
       (([0x75] : List Nat).length :: [0x75]) ++
         (([0x70] : List Nat).length :: [0x70]) ∧
     ∃ w : FrameWriter, pollTx (FrameWriter.new 40)
       { proto := .pap, payload := .ppp .configureReq 2 (.pap [0x75] [0x70]) } =
         .ok w) :=
  ⟨by decide, by decide,
   c8_pap_request [0x75] [0x70] 40 (by decide) (by decide) (by decide) (by decide)⟩

/-- Witness for C6: at asyncmap 5 and byte 2 (bit 2 clear in the map but
covered by the general characterization) with a one-byte IPv4 payload and
a 40-byte tx buffer, the escaping characterization holds. -/
theorem c6_witness :
    2 * ([0x45] : List Nat).length + 13 ≤ 40 ∧
    (escByte 5 2 = true ↔
      ((2 : Nat) = 0x7d ∨ (2 : Nat) = 0x7e ∨
        ((2 : Nat) ≤ 0x1f ∧ (5 : Nat) &&& (1 <<< 2) ≠ 0))) :=
  ⟨by decide,
   (c6_asyncmap_application 5 2 40 { LCP.new with asyncmap_remote := 0 } [0x45]
     (by decide)).1⟩
